import Mathlib

/-!
Table reader options decoder (`lib/src/csv_table_options.cc`).

A shallow embedding of `duckdb::web::csv::TableReaderOptions::ReadFrom` and its helpers
`GetTypeName`, `RequireFieldType` and `FIELD_TAGS`, followed by the properties proved about them.

* A `rapidjson::Value` is an inductive tree; its type tag is the numeric value of
  `rapidjson::Type`.
* An `arrow::Status` is either `OK` or a failure code with a message; an `arrow::Result<T>` is
  either a value or a failure.
* `ReadFrom` is a member function that assigns to the members of `*this`; it is embedded as a
  function from the record before the call to the returned status and the record after the call.
* `json::ReadFields` is taken as a parameter of the embedding.
-/

set_option autoImplicit false

/-! ## rapidjson: type tags and values -/

namespace rapidjson

/-- The numeric value of a `rapidjson::Type` tag. -/
abbrev TypeTag := Nat

/-- Tag `rapidjson::kNullType`. -/
@[match_pattern] abbrev kNullType : TypeTag := 0
/-- Tag `rapidjson::kFalseType`. -/
@[match_pattern] abbrev kFalseType : TypeTag := 1
/-- Tag `rapidjson::kTrueType`. -/
@[match_pattern] abbrev kTrueType : TypeTag := 2
/-- Tag `rapidjson::kObjectType`. -/
@[match_pattern] abbrev kObjectType : TypeTag := 3
/-- Tag `rapidjson::kArrayType`. -/
@[match_pattern] abbrev kArrayType : TypeTag := 4
/-- Tag `rapidjson::kStringType`. -/
@[match_pattern] abbrev kStringType : TypeTag := 5
/-- Tag `rapidjson::kNumberType`. -/
@[match_pattern] abbrev kNumberType : TypeTag := 6

/-- A `rapidjson::Value` (a `rapidjson::Document` is a `Value`). Object members are kept in
document order as (name, value) pairs; duplicate names are possible. -/
inductive Value where
  | null
  | bFalse
  | bTrue
  | object (members : List (String × Value))
  | array (elements : List Value)
  | string (s : String)
  | number (n : ℚ)

namespace Value

/-- The tag returned by `Value::GetType()`. -/
def GetType : Value → TypeTag
  | null => kNullType
  | bFalse => kFalseType
  | bTrue => kTrueType
  | object _ => kObjectType
  | array _ => kArrayType
  | string _ => kStringType
  | number _ => kNumberType

/-- The test `Value::IsObject()`. -/
def IsObject (v : Value) : Bool := v.GetType == kObjectType

/-- The members visited from `MemberBegin()` to `MemberEnd()`, in document order.
Only called after `IsObject()` has been checked. -/
def Members : Value → List (String × Value)
  | object ms => ms
  | _ => []

/-- The bytes `{GetString(), GetStringLength()}` of a string value.
Only called after the tag has been checked to be `kStringType`. -/
def GetString : Value → String
  | string s => s
  | _ => ""

/-- The elements of `GetArray()`.
Only called after the tag has been checked to be `kArrayType`. -/
def GetArray : Value → List Value
  | array es => es
  | _ => []

end Value

end rapidjson

/-! ## arrow: status and result -/

namespace arrow

/-- The failure codes of `arrow::StatusCode`. The code `OK` is not listed: a status that
carries a code and a message is never OK, and the OK status is `Status.OK`. -/
inductive StatusCode where
  | OutOfMemory
  | KeyError
  | TypeError
  | Invalid
  | IOError
  | CapacityError
  | IndexError
  | Cancelled
  | UnknownError
  | NotImplemented
  | SerializationError
  | RError
  | CodeGenError
  | ExpressionValidationError
  | ExecutionError
  | AlreadyExists
  deriving DecidableEq, Repr

/-- An `arrow::Status`: `Status::OK()` or `Status(code, msg)`. -/
inductive Status where
  | OK
  | Fail (code : StatusCode) (msg : String)
  deriving DecidableEq, Repr

/-- The test `Status::ok()`. -/
def Status.ok : Status → Bool
  | Status.OK => true
  | Status.Fail _ _ => false

/-- An `arrow::Result<T>`: a value, or a status that is not OK. -/
inductive Result (T : Type) where
  | value (v : T)
  | error (code : StatusCode) (msg : String)
  deriving DecidableEq, Repr

/-- The test `Result::ok()`. -/
def Result.ok {T : Type} : Result T → Bool
  | Result.value _ => true
  | Result.error _ _ => false

/-- The status `Result::status()`. -/
def Result.status {T : Type} : Result T → Status
  | Result.value _ => Status.OK
  | Result.error code msg => Status.Fail code msg

end arrow

/-! ## The decoder -/

namespace duckdb.web.csv

open rapidjson arrow

/-- The name of a type tag (`GetTypeName`). The cases are, in the order of the source,
`kArrayType`, `kTrueType`, `kFalseType`, `kNumberType`, `kObjectType`, `kNullType`,
`kStringType` and `default`. -/
def GetTypeName (type : TypeTag) : String :=
  match type with
  | kArrayType => "array"
  | kTrueType => "boolean"
  | kFalseType => "boolean"
  | kNumberType => "number"
  | kObjectType => "object"
  | kNullType => "null"
  | kStringType => "string"
  | _ => "?"

/-- Require a certain field type (`RequireFieldType`). -/
def RequireFieldType (value : Value) (type : TypeTag) (field : String) : Status :=
  if value.GetType ≠ type then
    Status.Fail StatusCode.Invalid
      ("type mismatch for field '" ++ field ++ "': expected " ++ GetTypeName type
        ++ ", received " ++ GetTypeName value.GetType)
  else Status.OK

/-- The enumeration `FieldTag`. -/
inductive FieldTag where
  | SCHEMA
  | NAME
  | FIELDS
  deriving DecidableEq, Repr

/-- The table `FIELD_TAGS` (an `unordered_map` with three distinct keys). -/
def FIELD_TAGS : List (String × FieldTag) :=
  [("schema", FieldTag.SCHEMA), ("name", FieldTag.NAME), ("fields", FieldTag.FIELDS)]

/-- Modelled from the spec: the record `TableReaderOptions`, whose declaration (header
`duckdb/web/csv_table_options.h`) is not among the sources. `schema_name` and `table_name` are
optional texts and `fields` is an ordered sequence of field descriptors. The descriptor type
`Field` is left abstract. -/
structure TableReaderOptions (Field : Type) where
  schema_name : Option String
  table_name : Option String
  fields : List Field
  deriving DecidableEq, Repr

/-- Modelled from the spec: the freshly constructed record ("constructed empty"): both names
absent and no fields. -/
def TableReaderOptions.empty (Field : Type) : TableReaderOptions Field :=
  { schema_name := none, table_name := none, fields := [] }

/-- The signature of `json::ReadFields`, the decoder of a `fields` array. -/
abbrev FieldsReader (Field : Type) := List Value → Result (List Field)

/-- The loop of `ReadFrom` over the members from `iter` to `MemberEnd()`: the returned status
and the record as the loop leaves it. -/
def ReadMembers {Field : Type} (ReadFields : FieldsReader Field) :
    List (String × Value) → TableReaderOptions Field → Status × TableReaderOptions Field
  | [], self => (Status.OK, self)
  | (name, value) :: rest, self =>
    match FIELD_TAGS.lookup name with
    | none => ReadMembers ReadFields rest self
    | some FieldTag.SCHEMA =>
      let st := RequireFieldType value kStringType "schema"
      if !st.ok then (st, self)
      else ReadMembers ReadFields rest { self with schema_name := some value.GetString }
    | some FieldTag.NAME =>
      let st := RequireFieldType value kStringType "name"
      if !st.ok then (st, self)
      else ReadMembers ReadFields rest { self with table_name := some value.GetString }
    | some FieldTag.FIELDS =>
      let st := RequireFieldType value kArrayType "fields"
      if !st.ok then (st, self)
      else
        match ReadFields value.GetArray with
        | Result.error code msg => (Status.Fail code msg, self)
        | Result.value fs => ReadMembers ReadFields rest { self with fields := fs }

/-- Read from document (`TableReaderOptions::ReadFrom`): the returned status and the record
after the call, given the record before the call. -/
def TableReaderOptions.ReadFrom {Field : Type} (ReadFields : FieldsReader Field)
    (self : TableReaderOptions Field) (doc : Value) : Status × TableReaderOptions Field :=
  if !doc.IsObject then (Status.OK, self)
  else ReadMembers ReadFields doc.Members self

/-! ## Vocabulary of the properties -/

/-- A key is recognized when it is one of the three texts `schema`, `name`, `fields`. -/
def Recognized (key : String) : Prop :=
  key = "schema" ∨ key = "name" ∨ key = "fields"

instance (key : String) : Decidable (Recognized key) := by
  unfold Recognized; infer_instance

/-- A member is accepted when it is not a failing member: a `schema` or `name` member is
accepted when its value is a String, a `fields` member when its value is an Array on which
the field-list decoder succeeds, and a member with any other key always. -/
def Accepted {Field : Type} (ReadFields : FieldsReader Field) (m : String × Value) : Prop :=
  (m.1 = "schema" → m.2.GetType = kStringType) ∧
  (m.1 = "name" → m.2.GetType = kStringType) ∧
  (m.1 = "fields" → m.2.GetType = kArrayType ∧ (ReadFields m.2.GetArray).ok = true)

instance {Field : Type} (ReadFields : FieldsReader Field) (m : String × Value) :
    Decidable (Accepted ReadFields m) := by
  unfold Accepted; infer_instance

/-- A field-list decoder for the examples, with texts as field descriptors: it accepts an
array whose elements are all Strings and returns their texts in order; it rejects any other
array with the code `Invalid` and the message `invalid field`. -/
def exampleReadFields : FieldsReader String := fun elements =>
  if elements.all (fun e => e.GetType == kStringType) then
    Result.value (elements.map Value.GetString)
  else Result.error StatusCode.Invalid "invalid field"

/-- The members of the example document `{"name": "t", "schema": 42, "fields": "x"}`, in
which the members "schema" and "fields" are failing. -/
def exampleTwoFailing : List (String × Value) :=
  [("name", Value.string "t"), ("schema", Value.number 42), ("fields", Value.string "x")]

/-- The example document `{"name": "a", "schema": 42}`, which fails at its second member. -/
def exampleNameThenSchema : Value :=
  Value.object [("name", Value.string "a"), ("schema", Value.number 42)]

/-- An example record that holds `table_name = "t"` and the field `f0` before a call. -/
def exampleFilledRecord : TableReaderOptions String :=
  { schema_name := none, table_name := some "t", fields := ["f0"] }

/-! ## Lemmas on the table and on one turn of the loop -/

theorem FIELD_TAGS_lookup_schema : FIELD_TAGS.lookup "schema" = some FieldTag.SCHEMA := by
  decide

theorem FIELD_TAGS_lookup_name : FIELD_TAGS.lookup "name" = some FieldTag.NAME := by
  decide

theorem FIELD_TAGS_lookup_fields : FIELD_TAGS.lookup "fields" = some FieldTag.FIELDS := by
  decide

theorem FIELD_TAGS_lookup_other (key : String) (h : ¬ Recognized key) :
    FIELD_TAGS.lookup key = none := by
  simp only [Recognized, not_or] at h
  obtain ⟨h1, h2, h3⟩ := h
  have e1 : (key == "schema") = false := by simpa using h1
  have e2 : (key == "name") = false := by simpa using h2
  have e3 : (key == "fields") = false := by simpa using h3
  simp [FIELD_TAGS, List.lookup, e1, e2, e3]

theorem RequireFieldType_same (value : Value) (type : TypeTag) (field : String)
    (h : value.GetType = type) : RequireFieldType value type field = Status.OK := by
  simp [RequireFieldType, h]

theorem RequireFieldType_other (value : Value) (type : TypeTag) (field : String)
    (h : value.GetType ≠ type) :
    RequireFieldType value type field = Status.Fail StatusCode.Invalid
      ("type mismatch for field '" ++ field ++ "': expected " ++ GetTypeName type
        ++ ", received " ++ GetTypeName value.GetType) := by
  simp [RequireFieldType, h]

section Steps

variable {Field : Type} (rf : FieldsReader Field)

theorem ReadMembers_nil (r : TableReaderOptions Field) :
    ReadMembers rf [] r = (Status.OK, r) := by
  simp [ReadMembers]

theorem ReadMembers_skip (key : String) (v : Value) (rest : List (String × Value))
    (r : TableReaderOptions Field) (h : ¬ Recognized key) :
    ReadMembers rf ((key, v) :: rest) r = ReadMembers rf rest r := by
  simp [ReadMembers, FIELD_TAGS_lookup_other key h]

theorem ReadMembers_schema_ok (v : Value) (rest : List (String × Value))
    (r : TableReaderOptions Field) (h : v.GetType = kStringType) :
    ReadMembers rf (("schema", v) :: rest) r
      = ReadMembers rf rest { r with schema_name := some v.GetString } := by
  simp [ReadMembers, FIELD_TAGS_lookup_schema, RequireFieldType_same _ _ _ h, Status.ok]

theorem ReadMembers_schema_bad (v : Value) (rest : List (String × Value))
    (r : TableReaderOptions Field) (h : v.GetType ≠ kStringType) :
    ReadMembers rf (("schema", v) :: rest) r
      = (RequireFieldType v kStringType "schema", r) := by
  simp [ReadMembers, FIELD_TAGS_lookup_schema, RequireFieldType_other _ _ _ h, Status.ok]

theorem ReadMembers_name_ok (v : Value) (rest : List (String × Value))
    (r : TableReaderOptions Field) (h : v.GetType = kStringType) :
    ReadMembers rf (("name", v) :: rest) r
      = ReadMembers rf rest { r with table_name := some v.GetString } := by
  simp [ReadMembers, FIELD_TAGS_lookup_name, RequireFieldType_same _ _ _ h, Status.ok]

theorem ReadMembers_name_bad (v : Value) (rest : List (String × Value))
    (r : TableReaderOptions Field) (h : v.GetType ≠ kStringType) :
    ReadMembers rf (("name", v) :: rest) r
      = (RequireFieldType v kStringType "name", r) := by
  simp [ReadMembers, FIELD_TAGS_lookup_name, RequireFieldType_other _ _ _ h, Status.ok]

theorem ReadMembers_fields_ok (v : Value) (fs : List Field) (rest : List (String × Value))
    (r : TableReaderOptions Field) (h : v.GetType = kArrayType)
    (hfs : rf v.GetArray = Result.value fs) :
    ReadMembers rf (("fields", v) :: rest) r
      = ReadMembers rf rest { r with fields := fs } := by
  simp [ReadMembers, FIELD_TAGS_lookup_fields, RequireFieldType_same _ _ _ h, Status.ok, hfs]

theorem ReadMembers_fields_bad (v : Value) (rest : List (String × Value))
    (r : TableReaderOptions Field) (h : v.GetType ≠ kArrayType) :
    ReadMembers rf (("fields", v) :: rest) r
      = (RequireFieldType v kArrayType "fields", r) := by
  simp [ReadMembers, FIELD_TAGS_lookup_fields, RequireFieldType_other _ _ _ h, Status.ok]

theorem ReadMembers_fields_rejected (v : Value) (code : StatusCode) (msg : String)
    (rest : List (String × Value)) (r : TableReaderOptions Field)
    (h : v.GetType = kArrayType) (hfs : rf v.GetArray = Result.error code msg) :
    ReadMembers rf (("fields", v) :: rest) r = (Status.Fail code msg, r) := by
  simp [ReadMembers, FIELD_TAGS_lookup_fields, RequireFieldType_same _ _ _ h, Status.ok, hfs]

theorem ReadFrom_object (ms : List (String × Value)) (r : TableReaderOptions Field) :
    TableReaderOptions.ReadFrom rf r (Value.object ms) = ReadMembers rf ms r := by
  simp [TableReaderOptions.ReadFrom, Value.IsObject, Value.GetType, Value.Members]

/-- The loop on a list of members is one turn on the first member, then, if that turn did
not return an error, the loop on the remaining members. -/
theorem ReadMembers_cons (m : String × Value) (rest : List (String × Value))
    (r : TableReaderOptions Field) :
    ReadMembers rf (m :: rest) r
      = if (ReadMembers rf [m] r).1 = Status.OK then ReadMembers rf rest (ReadMembers rf [m] r).2
        else ReadMembers rf [m] r := by
  obtain ⟨k, v⟩ := m
  by_cases hk : Recognized k
  · rcases hk with hk | hk | hk <;> subst hk
    · by_cases ht : v.GetType = kStringType
      · simp [ReadMembers_schema_ok rf v _ r ht, ReadMembers_nil]
      · simp [ReadMembers_schema_bad rf v _ r ht, RequireFieldType_other _ _ _ ht]
    · by_cases ht : v.GetType = kStringType
      · simp [ReadMembers_name_ok rf v _ r ht, ReadMembers_nil]
      · simp [ReadMembers_name_bad rf v _ r ht, RequireFieldType_other _ _ _ ht]
    · by_cases ht : v.GetType = kArrayType
      · cases hfs : rf v.GetArray with
        | value fs => simp [ReadMembers_fields_ok rf v fs _ r ht hfs, ReadMembers_nil]
        | error code msg => simp [ReadMembers_fields_rejected rf v code msg _ r ht hfs]
      · simp [ReadMembers_fields_bad rf v _ r ht, RequireFieldType_other _ _ _ ht]
  · simp [ReadMembers_skip rf k v _ r hk, ReadMembers_nil]

/-- A turn of the loop returns OK exactly on an accepted member. -/
theorem ReadMembers_single_ok_iff (m : String × Value) (r : TableReaderOptions Field) :
    (ReadMembers rf [m] r).1 = Status.OK ↔ Accepted rf m := by
  obtain ⟨k, v⟩ := m
  by_cases hk : Recognized k
  · rcases hk with hk | hk | hk <;> subst hk
    · by_cases ht : v.GetType = kStringType
      · simp [ReadMembers_schema_ok rf v _ r ht, ReadMembers_nil, Accepted, ht]
      · simp [ReadMembers_schema_bad rf v _ r ht, RequireFieldType_other _ _ _ ht, Accepted, ht]
    · by_cases ht : v.GetType = kStringType
      · simp [ReadMembers_name_ok rf v _ r ht, ReadMembers_nil, Accepted, ht]
      · simp [ReadMembers_name_bad rf v _ r ht, RequireFieldType_other _ _ _ ht, Accepted, ht]
    · by_cases ht : v.GetType = kArrayType
      · cases hfs : rf v.GetArray with
        | value fs =>
          simp [ReadMembers_fields_ok rf v fs _ r ht hfs, ReadMembers_nil, Accepted, ht, hfs,
            Result.ok]
        | error code msg =>
          simp [ReadMembers_fields_rejected rf v code msg _ r ht hfs, Accepted, ht, hfs,
            Result.ok]
      · simp [ReadMembers_fields_bad rf v _ r ht, RequireFieldType_other _ _ _ ht, Accepted, ht]
  · have h1 : k ≠ "schema" := fun h => hk (Or.inl h)
    have h2 : k ≠ "name" := fun h => hk (Or.inr (Or.inl h))
    have h3 : k ≠ "fields" := fun h => hk (Or.inr (Or.inr h))
    simp [ReadMembers_skip rf k v _ r hk, ReadMembers_nil, Accepted, h1, h2, h3]

/-- The status returned by a turn of the loop does not depend on the record. -/
theorem ReadMembers_single_status (m : String × Value) (r r' : TableReaderOptions Field) :
    (ReadMembers rf [m] r).1 = (ReadMembers rf [m] r').1 := by
  obtain ⟨k, v⟩ := m
  by_cases hk : Recognized k
  · rcases hk with hk | hk | hk <;> subst hk
    · by_cases ht : v.GetType = kStringType
      · simp [ReadMembers_schema_ok rf v _ _ ht, ReadMembers_nil]
      · simp [ReadMembers_schema_bad rf v _ _ ht]
    · by_cases ht : v.GetType = kStringType
      · simp [ReadMembers_name_ok rf v _ _ ht, ReadMembers_nil]
      · simp [ReadMembers_name_bad rf v _ _ ht]
    · by_cases ht : v.GetType = kArrayType
      · cases hfs : rf v.GetArray with
        | value fs => simp [ReadMembers_fields_ok rf v fs _ _ ht hfs, ReadMembers_nil]
        | error code msg => simp [ReadMembers_fields_rejected rf v code msg _ _ ht hfs]
      · simp [ReadMembers_fields_bad rf v _ _ ht]
  · simp [ReadMembers_skip rf k v _ _ hk, ReadMembers_nil]

/-- A turn of the loop that returns an error assigns nothing. -/
theorem ReadMembers_single_fail (m : String × Value) (r : TableReaderOptions Field)
    (h : ¬ Accepted rf m) : (ReadMembers rf [m] r).2 = r := by
  have hst : (ReadMembers rf [m] r).1 ≠ Status.OK :=
    fun e => h ((ReadMembers_single_ok_iff rf m r).mp e)
  obtain ⟨k, v⟩ := m
  by_cases hk : Recognized k
  · rcases hk with hk | hk | hk <;> subst hk
    · by_cases ht : v.GetType = kStringType
      · simp [ReadMembers_schema_ok rf v _ _ ht, ReadMembers_nil] at hst
      · simp [ReadMembers_schema_bad rf v _ _ ht]
    · by_cases ht : v.GetType = kStringType
      · simp [ReadMembers_name_ok rf v _ _ ht, ReadMembers_nil] at hst
      · simp [ReadMembers_name_bad rf v _ _ ht]
    · by_cases ht : v.GetType = kArrayType
      · cases hfs : rf v.GetArray with
        | value fs => simp [ReadMembers_fields_ok rf v fs _ _ ht hfs, ReadMembers_nil] at hst
        | error code msg => simp [ReadMembers_fields_rejected rf v code msg _ _ ht hfs]
      · simp [ReadMembers_fields_bad rf v _ _ ht]
  · simp [ReadMembers_skip rf k v _ _ hk, ReadMembers_nil]

/-- The loop on a concatenation is the loop on the first part, then, if it did not return an
error, the loop on the second part. -/
theorem ReadMembers_append (pre post : List (String × Value)) (r : TableReaderOptions Field) :
    ReadMembers rf (pre ++ post) r
      = if (ReadMembers rf pre r).1 = Status.OK then ReadMembers rf post (ReadMembers rf pre r).2
        else ReadMembers rf pre r := by
  induction pre generalizing r with
  | nil => simp [ReadMembers_nil]
  | cons m pre ih =>
    rw [List.cons_append, ReadMembers_cons rf m (pre ++ post), ReadMembers_cons rf m pre]
    by_cases h : (ReadMembers rf [m] r).1 = Status.OK
    · simp only [h, if_true]
      exact ih _
    · simp [h]

/-- The loop returns OK on a list of accepted members. -/
theorem ReadMembers_accepted (ms : List (String × Value)) (r : TableReaderOptions Field)
    (h : ∀ m ∈ ms, Accepted rf m) : (ReadMembers rf ms r).1 = Status.OK := by
  induction ms generalizing r with
  | nil => simp [ReadMembers_nil]
  | cons m ms ih =>
    have hm : (ReadMembers rf [m] r).1 = Status.OK :=
      (ReadMembers_single_ok_iff rf m r).mpr (h m (List.mem_cons_self _ _))
    rw [ReadMembers_cons, if_pos hm]
    exact ih _ (fun x hx => h x (List.mem_cons_of_mem _ hx))

/-- The loop stops at the first member that is not accepted: the outcome is the error of
that member and the record left by the members before it. -/
theorem ReadMembers_first_failing (pre post : List (String × Value)) (m : String × Value)
    (r : TableReaderOptions Field) (hpre : ∀ x ∈ pre, Accepted rf x) (hm : ¬ Accepted rf m) :
    ReadMembers rf (pre ++ m :: post) r
      = ((ReadMembers rf [m] r).1, (ReadMembers rf pre r).2) := by
  have hst : (ReadMembers rf [m] (ReadMembers rf pre r).2).1 ≠ Status.OK :=
    fun e => hm ((ReadMembers_single_ok_iff rf m _).mp e)
  rw [ReadMembers_append, if_pos (ReadMembers_accepted rf pre r hpre), ReadMembers_cons,
    if_neg hst]
  apply Prod.ext
  · exact ReadMembers_single_status rf m _ r
  · exact ReadMembers_single_fail rf m _ hm

/-- A turn of the loop on a member whose key is not `schema` leaves `schema_name` as it was. -/
theorem ReadMembers_single_frame_schema (m : String × Value) (r : TableReaderOptions Field)
    (h : m.1 ≠ "schema") : (ReadMembers rf [m] r).2.schema_name = r.schema_name := by
  obtain ⟨k, v⟩ := m
  by_cases hk : Recognized k
  · rcases hk with hk | hk | hk <;> subst hk
    · by_cases ht : v.GetType = kStringType
      · exact absurd rfl h
      · simp [ReadMembers_schema_bad rf v _ _ ht]
    · by_cases ht : v.GetType = kStringType
      · simp [ReadMembers_name_ok rf v _ _ ht, ReadMembers_nil]
      · simp [ReadMembers_name_bad rf v _ _ ht]
    · by_cases ht : v.GetType = kArrayType
      · cases hfs : rf v.GetArray with
        | value fs =>
          simp [ReadMembers_fields_ok rf v fs _ _ ht hfs, ReadMembers_nil]
        | error code msg => simp [ReadMembers_fields_rejected rf v code msg _ _ ht hfs]
      · simp [ReadMembers_fields_bad rf v _ _ ht]
  · simp [ReadMembers_skip rf k v _ _ hk, ReadMembers_nil]

/-- The loop on members none of which has the key `schema` leaves `schema_name` as it was. -/
theorem ReadMembers_frame_schema (ms : List (String × Value)) (r : TableReaderOptions Field)
    (h : ∀ m ∈ ms, m.1 ≠ "schema") : (ReadMembers rf ms r).2.schema_name = r.schema_name := by
  induction ms generalizing r with
  | nil => simp [ReadMembers_nil]
  | cons m ms ih =>
    have h1 := ReadMembers_single_frame_schema rf m r (h m (List.mem_cons_self _ _))
    rw [ReadMembers_cons]
    split
    · rw [ih _ (fun x hx => h x (List.mem_cons_of_mem _ hx)), h1]
    · exact h1

/-- A turn of the loop on a member whose key is not `name` leaves `table_name` as it was. -/
theorem ReadMembers_single_frame_name (m : String × Value) (r : TableReaderOptions Field)
    (h : m.1 ≠ "name") : (ReadMembers rf [m] r).2.table_name = r.table_name := by
  obtain ⟨k, v⟩ := m
  by_cases hk : Recognized k
  · rcases hk with hk | hk | hk <;> subst hk
    · by_cases ht : v.GetType = kStringType
      · simp [ReadMembers_schema_ok rf v _ _ ht, ReadMembers_nil]
      · simp [ReadMembers_schema_bad rf v _ _ ht]
    · by_cases ht : v.GetType = kStringType
      · exact absurd rfl h
      · simp [ReadMembers_name_bad rf v _ _ ht]
    · by_cases ht : v.GetType = kArrayType
      · cases hfs : rf v.GetArray with
        | value fs =>
          simp [ReadMembers_fields_ok rf v fs _ _ ht hfs, ReadMembers_nil]
        | error code msg => simp [ReadMembers_fields_rejected rf v code msg _ _ ht hfs]
      · simp [ReadMembers_fields_bad rf v _ _ ht]
  · simp [ReadMembers_skip rf k v _ _ hk, ReadMembers_nil]

/-- The loop on members none of which has the key `name` leaves `table_name` as it was. -/
theorem ReadMembers_frame_name (ms : List (String × Value)) (r : TableReaderOptions Field)
    (h : ∀ m ∈ ms, m.1 ≠ "name") : (ReadMembers rf ms r).2.table_name = r.table_name := by
  induction ms generalizing r with
  | nil => simp [ReadMembers_nil]
  | cons m ms ih =>
    have h1 := ReadMembers_single_frame_name rf m r (h m (List.mem_cons_self _ _))
    rw [ReadMembers_cons]
    split
    · rw [ih _ (fun x hx => h x (List.mem_cons_of_mem _ hx)), h1]
    · exact h1

/-- A turn of the loop on a member whose key is not `fields` leaves `fields` as it was. -/
theorem ReadMembers_single_frame_fields (m : String × Value) (r : TableReaderOptions Field)
    (h : m.1 ≠ "fields") : (ReadMembers rf [m] r).2.fields = r.fields := by
  obtain ⟨k, v⟩ := m
  by_cases hk : Recognized k
  · rcases hk with hk | hk | hk <;> subst hk
    · by_cases ht : v.GetType = kStringType
      · simp [ReadMembers_schema_ok rf v _ _ ht, ReadMembers_nil]
      · simp [ReadMembers_schema_bad rf v _ _ ht]
    · by_cases ht : v.GetType = kStringType
      · simp [ReadMembers_name_ok rf v _ _ ht, ReadMembers_nil]
      · simp [ReadMembers_name_bad rf v _ _ ht]
    · by_cases ht : v.GetType = kArrayType
      · cases hfs : rf v.GetArray with
        | value fs =>
          exact absurd rfl h
        | error code msg => simp [ReadMembers_fields_rejected rf v code msg _ _ ht hfs]
      · simp [ReadMembers_fields_bad rf v _ _ ht]
  · simp [ReadMembers_skip rf k v _ _ hk, ReadMembers_nil]

/-- The loop on members none of which has the key `fields` leaves `fields` as it was. -/
theorem ReadMembers_frame_fields (ms : List (String × Value)) (r : TableReaderOptions Field)
    (h : ∀ m ∈ ms, m.1 ≠ "fields") : (ReadMembers rf ms r).2.fields = r.fields := by
  induction ms generalizing r with
  | nil => simp [ReadMembers_nil]
  | cons m ms ih =>
    have h1 := ReadMembers_single_frame_fields rf m r (h m (List.mem_cons_self _ _))
    rw [ReadMembers_cons]
    split
    · rw [ih _ (fun x hx => h x (List.mem_cons_of_mem _ hx)), h1]
    · exact h1

/-- When the loop returns OK on a list, it returned OK on every initial part of it. -/
theorem ReadMembers_ok_left (pre post : List (String × Value)) (r : TableReaderOptions Field)
    (h : (ReadMembers rf (pre ++ post) r).1 = Status.OK) :
    (ReadMembers rf pre r).1 = Status.OK := by
  by_contra hpre
  rw [ReadMembers_append, if_neg hpre] at h
  exact hpre h

/-- When the loop returns OK on a list, it is the loop on the second part run on the record
left by the first part. -/
theorem ReadMembers_ok_split (pre post : List (String × Value)) (r : TableReaderOptions Field)
    (h : (ReadMembers rf (pre ++ post) r).1 = Status.OK) :
    ReadMembers rf (pre ++ post) r = ReadMembers rf post (ReadMembers rf pre r).2 := by
  rw [ReadMembers_append, if_pos (ReadMembers_ok_left rf pre post r h)]

/-- When the loop returns OK, every member is accepted. -/
theorem ReadMembers_ok_accepted (ms : List (String × Value)) (r : TableReaderOptions Field)
    (h : (ReadMembers rf ms r).1 = Status.OK) : ∀ m ∈ ms, Accepted rf m := by
  induction ms generalizing r with
  | nil => simp
  | cons m ms ih =>
    rw [ReadMembers_cons] at h
    by_cases h1 : (ReadMembers rf [m] r).1 = Status.OK
    · rw [if_pos h1] at h
      intro x hx
      rcases List.mem_cons.mp hx with hx | hx
      · subst hx
        exact (ReadMembers_single_ok_iff rf x r).mp h1
      · exact ih _ h x hx
    · rw [if_neg h1] at h
      exact absurd h h1

/-- On success the target `schema_name` holds the string of the last `schema` member. -/
theorem ReadMembers_last_schema (pre post : List (String × Value)) (v : Value)
    (r : TableReaderOptions Field)
    (hok : (ReadMembers rf (pre ++ ("schema", v) :: post) r).1 = Status.OK)
    (hlast : ∀ m ∈ post, m.1 ≠ "schema") :
    (ReadMembers rf (pre ++ ("schema", v) :: post) r).2.schema_name = some v.GetString := by
  have hacc := ReadMembers_ok_accepted rf _ r hok ("schema", v) (by simp)
  have ht : v.GetType = kStringType := hacc.1 rfl
  rw [ReadMembers_ok_split rf pre _ r hok, ReadMembers_schema_ok rf v post _ ht,
    ReadMembers_frame_schema rf post _ hlast]

/-- On success the target `table_name` holds the string of the last `name` member. -/
theorem ReadMembers_last_name (pre post : List (String × Value)) (v : Value)
    (r : TableReaderOptions Field)
    (hok : (ReadMembers rf (pre ++ ("name", v) :: post) r).1 = Status.OK)
    (hlast : ∀ m ∈ post, m.1 ≠ "name") :
    (ReadMembers rf (pre ++ ("name", v) :: post) r).2.table_name = some v.GetString := by
  have hacc := ReadMembers_ok_accepted rf _ r hok ("name", v) (by simp)
  have ht : v.GetType = kStringType := hacc.2.1 rfl
  rw [ReadMembers_ok_split rf pre _ r hok, ReadMembers_name_ok rf v post _ ht,
    ReadMembers_frame_name rf post _ hlast]

/-- On success the target `fields` holds what the field-list decoder returned for the array
of the last `fields` member. -/
theorem ReadMembers_last_fields (pre post : List (String × Value)) (v : Value)
    (r : TableReaderOptions Field)
    (hok : (ReadMembers rf (pre ++ ("fields", v) :: post) r).1 = Status.OK)
    (hlast : ∀ m ∈ post, m.1 ≠ "fields") :
    rf v.GetArray
      = Result.value (ReadMembers rf (pre ++ ("fields", v) :: post) r).2.fields := by
  have hacc := ReadMembers_ok_accepted rf _ r hok ("fields", v) (by simp)
  obtain ⟨ht, hfs⟩ := hacc.2.2 rfl
  cases hv : rf v.GetArray with
  | error code msg => simp [hv, Result.ok] at hfs
  | value fs =>
    rw [ReadMembers_ok_split rf pre _ r hok, ReadMembers_fields_ok rf v fs post _ ht hv,
      ReadMembers_frame_fields rf post _ hlast]

/-- The loop on members none of which has a recognized key returns OK and assigns nothing. -/
theorem ReadMembers_unrecognized (ms : List (String × Value)) (r : TableReaderOptions Field)
    (h : ∀ m ∈ ms, ¬ Recognized m.1) : ReadMembers rf ms r = (Status.OK, r) := by
  induction ms with
  | nil => exact ReadMembers_nil rf r
  | cons m ms ih =>
    obtain ⟨k, v⟩ := m
    rw [ReadMembers_skip rf k v ms r (h (k, v) (List.mem_cons_self _ _))]
    exact ih (fun x hx => h x (List.mem_cons_of_mem _ hx))

/-- The members with an unrecognized key can be removed without changing the outcome. -/
theorem ReadMembers_filter (ms : List (String × Value)) (r : TableReaderOptions Field) :
    ReadMembers rf (ms.filter (fun m => decide (Recognized m.1))) r = ReadMembers rf ms r := by
  induction ms generalizing r with
  | nil => rfl
  | cons m ms ih =>
    by_cases hk : Recognized m.1
    · rw [List.filter_cons_of_pos (by simpa using hk), ReadMembers_cons rf m ms,
        ReadMembers_cons rf m (ms.filter _)]
      split
      · exact ih _
      · rfl
    · rw [List.filter_cons_of_neg (by simpa using hk), ih]
      obtain ⟨k, v⟩ := m
      exact (ReadMembers_skip rf k v ms r hk).symm

/-- A list with a member that is not accepted splits at the first such member. -/
theorem exists_first_failing (ms : List (String × Value))
    (h : ∃ m ∈ ms, ¬ Accepted rf m) :
    ∃ pre m post, ms = pre ++ m :: post ∧ (∀ x ∈ pre, Accepted rf x) ∧ ¬ Accepted rf m := by
  induction ms with
  | nil => simp at h
  | cons a ms ih =>
    by_cases ha : Accepted rf a
    · obtain ⟨m, hm, hbad⟩ := h
      have hm2 : m ∈ ms := by
        rcases List.mem_cons.mp hm with e | e
        · exact absurd (e ▸ ha) hbad
        · exact e
      obtain ⟨pre, x, post, hms, hpre, hx⟩ := ih ⟨m, hm2, hbad⟩
      refine ⟨a :: pre, x, post, by rw [hms]; rfl, ?_, hx⟩
      intro y hy
      rcases List.mem_cons.mp hy with e | e
      · exact e ▸ ha
      · exact hpre y e
    · exact ⟨[], a, ms, rfl, by simp, ha⟩

/-- A call of `ReadFrom` that does not return OK was made on an Object with a member that is
not accepted. -/
theorem ReadFrom_fail_object (r : TableReaderOptions Field) (doc : Value)
    (h : (TableReaderOptions.ReadFrom rf r doc).1 ≠ Status.OK) :
    ∃ ms, doc = Value.object ms ∧ ∃ m ∈ ms, ¬ Accepted rf m := by
  cases doc with
  | object ms =>
    refine ⟨ms, rfl, ?_⟩
    by_contra hall
    simp only [not_exists, not_and, not_not] at hall
    exact h (by rw [ReadFrom_object]; exact ReadMembers_accepted rf ms r hall)
  | _ => simp [TableReaderOptions.ReadFrom, Value.IsObject, Value.GetType] at h

/-- The status returned by the loop does not depend on the record it starts from. -/
theorem ReadMembers_status (ms : List (String × Value)) (r r' : TableReaderOptions Field) :
    (ReadMembers rf ms r).1 = (ReadMembers rf ms r').1 := by
  by_cases hall : ∀ m ∈ ms, Accepted rf m
  · rw [ReadMembers_accepted rf ms r hall, ReadMembers_accepted rf ms r' hall]
  · have hbad : ∃ m ∈ ms, ¬ Accepted rf m := by
      by_contra hno
      exact hall (fun m hm => by_contra (fun hbad => hno ⟨m, hm, hbad⟩))
    obtain ⟨pre, m, post, hms, hpre, hm⟩ := exists_first_failing rf ms hbad
    rw [hms, ReadMembers_first_failing rf pre post m r hpre hm,
      ReadMembers_first_failing rf pre post m r' hpre hm]
    exact ReadMembers_single_status rf m r r'

/-- When a key occurs at most once among the members, no member after an occurrence of the
key has that key. -/
theorem no_later_key (ms pre post : List (String × Value)) (key : String) (v : Value)
    (hms : ms = pre ++ (key, v) :: post) (hcount : (ms.map Prod.fst).count key ≤ 1) :
    ∀ m ∈ post, m.1 ≠ key := by
  intro m hm hkey
  rw [hms] at hcount
  simp only [List.map_append, List.map_cons, List.count_append, List.count_cons_self]
    at hcount
  have hpos : 0 < List.count key (List.map Prod.fst post) :=
    List.count_pos_iff.mpr (List.mem_map.mpr ⟨m, hm, hkey⟩)
  omega

/-- A key that occurs among the members has a last occurrence. -/
theorem exists_last_key (ms : List (String × Value)) (key : String)
    (h : ∃ m ∈ ms, m.1 = key) :
    ∃ pre v post, ms = pre ++ (key, v) :: post ∧ ∀ x ∈ post, x.1 ≠ key := by
  induction ms with
  | nil => simp at h
  | cons a ms ih =>
    by_cases hlater : ∃ m ∈ ms, m.1 = key
    · obtain ⟨pre, v, post, hms, hpost⟩ := ih hlater
      exact ⟨a :: pre, v, post, by rw [hms]; rfl, hpost⟩
    · obtain ⟨m, hm, hkey⟩ := h
      have ha : a.1 = key := by
        rcases List.mem_cons.mp hm with e | e
        · exact e ▸ hkey
        · exact absurd ⟨m, e, hkey⟩ hlater
      refine ⟨[], a.2, ms, ?_, fun x hx hk => hlater ⟨x, hx, hk⟩⟩
      rw [← ha]
      rfl

/-- Two records with the same three members are equal. -/
theorem TableReaderOptions_eq (a b : TableReaderOptions Field)
    (h1 : a.schema_name = b.schema_name) (h2 : a.table_name = b.table_name)
    (h3 : a.fields = b.fields) : a = b := by
  cases a
  cases b
  simp only [TableReaderOptions.mk.injEq]
  exact ⟨h1, h2, h3⟩

/-- After a successful loop on members among which the key `schema` occurs, `schema_name`
does not depend on the record the loop started from. -/
theorem ReadMembers_set_schema (ms : List (String × Value)) (r r' : TableReaderOptions Field)
    (hall : ∀ m ∈ ms, Accepted rf m) (hocc : ∃ m ∈ ms, m.1 = "schema") :
    (ReadMembers rf ms r).2.schema_name = (ReadMembers rf ms r').2.schema_name := by
  obtain ⟨pre, v, post, hms, hpost⟩ := exists_last_key ms "schema" hocc
  subst hms
  rw [ReadMembers_last_schema rf pre post v r (ReadMembers_accepted rf _ r hall) hpost,
    ReadMembers_last_schema rf pre post v r' (ReadMembers_accepted rf _ r' hall) hpost]

/-- After a successful loop on members among which the key `name` occurs, `table_name`
does not depend on the record the loop started from. -/
theorem ReadMembers_set_name (ms : List (String × Value)) (r r' : TableReaderOptions Field)
    (hall : ∀ m ∈ ms, Accepted rf m) (hocc : ∃ m ∈ ms, m.1 = "name") :
    (ReadMembers rf ms r).2.table_name = (ReadMembers rf ms r').2.table_name := by
  obtain ⟨pre, v, post, hms, hpost⟩ := exists_last_key ms "name" hocc
  subst hms
  rw [ReadMembers_last_name rf pre post v r (ReadMembers_accepted rf _ r hall) hpost,
    ReadMembers_last_name rf pre post v r' (ReadMembers_accepted rf _ r' hall) hpost]

/-- After a successful loop on members among which the key `fields` occurs, `fields` does
not depend on the record the loop started from. -/
theorem ReadMembers_set_fields (ms : List (String × Value)) (r r' : TableReaderOptions Field)
    (hall : ∀ m ∈ ms, Accepted rf m) (hocc : ∃ m ∈ ms, m.1 = "fields") :
    (ReadMembers rf ms r).2.fields = (ReadMembers rf ms r').2.fields := by
  obtain ⟨pre, v, post, hms, hpost⟩ := exists_last_key ms "fields" hocc
  subst hms
  have h1 := ReadMembers_last_fields rf pre post v r (ReadMembers_accepted rf _ r hall) hpost
  have h2 := ReadMembers_last_fields rf pre post v r' (ReadMembers_accepted rf _ r' hall) hpost
  rw [h1] at h2
  exact Result.value.inj h2

/-- A successful loop run again on the record it left leaves that record as it is. -/
theorem ReadMembers_again (ms : List (String × Value)) (r : TableReaderOptions Field)
    (hall : ∀ m ∈ ms, Accepted rf m) :
    (ReadMembers rf ms (ReadMembers rf ms r).2).2 = (ReadMembers rf ms r).2 := by
  apply TableReaderOptions_eq
  · by_cases hocc : ∃ m ∈ ms, m.1 = "schema"
    · exact ReadMembers_set_schema rf ms _ r hall hocc
    · exact ReadMembers_frame_schema rf ms _ (fun m hm hk => hocc ⟨m, hm, hk⟩)
  · by_cases hocc : ∃ m ∈ ms, m.1 = "name"
    · exact ReadMembers_set_name rf ms _ r hall hocc
    · exact ReadMembers_frame_name rf ms _ (fun m hm hk => hocc ⟨m, hm, hk⟩)
  · by_cases hocc : ∃ m ∈ ms, m.1 = "fields"
    · exact ReadMembers_set_fields rf ms _ r hall hocc
    · exact ReadMembers_frame_fields rf ms _ (fun m hm hk => hocc ⟨m, hm, hk⟩)

/-- After a successful loop on members among which the key `schema` occurs at most once,
`schema_name` holds the string of the `schema` member. -/
theorem ReadMembers_unique_schema (ms : List (String × Value)) (r : TableReaderOptions Field)
    (v : Value) (hall : ∀ m ∈ ms, Accepted rf m)
    (hcount : (ms.map Prod.fst).count "schema" ≤ 1) (hmem : ("schema", v) ∈ ms) :
    (ReadMembers rf ms r).2.schema_name = some v.GetString := by
  obtain ⟨pre, post, hms⟩ := List.append_of_mem hmem
  have hpost := no_later_key ms pre post "schema" v hms hcount
  subst hms
  exact ReadMembers_last_schema rf pre post v r (ReadMembers_accepted rf _ r hall) hpost

/-- After a successful loop on members among which the key `name` occurs at most once,
`table_name` holds the string of the `name` member. -/
theorem ReadMembers_unique_name (ms : List (String × Value)) (r : TableReaderOptions Field)
    (v : Value) (hall : ∀ m ∈ ms, Accepted rf m)
    (hcount : (ms.map Prod.fst).count "name" ≤ 1) (hmem : ("name", v) ∈ ms) :
    (ReadMembers rf ms r).2.table_name = some v.GetString := by
  obtain ⟨pre, post, hms⟩ := List.append_of_mem hmem
  have hpost := no_later_key ms pre post "name" v hms hcount
  subst hms
  exact ReadMembers_last_name rf pre post v r (ReadMembers_accepted rf _ r hall) hpost

/-- After a successful loop on members among which the key `fields` occurs at most once,
`fields` holds what the field-list decoder returned for the array of the `fields` member. -/
theorem ReadMembers_unique_fields (ms : List (String × Value)) (r : TableReaderOptions Field)
    (v : Value) (hall : ∀ m ∈ ms, Accepted rf m)
    (hcount : (ms.map Prod.fst).count "fields" ≤ 1) (hmem : ("fields", v) ∈ ms) :
    rf v.GetArray = Result.value (ReadMembers rf ms r).2.fields := by
  obtain ⟨pre, post, hms⟩ := List.append_of_mem hmem
  have hpost := no_later_key ms pre post "fields" v hms hcount
  subst hms
  exact ReadMembers_last_fields rf pre post v r (ReadMembers_accepted rf _ r hall) hpost

/-- On accepted members in which each recognized key occurs at most once, the outcome of the
loop is the same for every order of the members. -/
theorem ReadMembers_perm (ms ms' : List (String × Value)) (r : TableReaderOptions Field)
    (hperm : ms.Perm ms') (hall : ∀ m ∈ ms, Accepted rf m)
    (hschema : (ms.map Prod.fst).count "schema" ≤ 1)
    (hname : (ms.map Prod.fst).count "name" ≤ 1)
    (hfields : (ms.map Prod.fst).count "fields" ≤ 1) :
    ReadMembers rf ms r = ReadMembers rf ms' r := by
  have hall' : ∀ m ∈ ms', Accepted rf m := fun m hm => hall m (hperm.mem_iff.mpr hm)
  have hcount : ∀ key, (ms'.map Prod.fst).count key = (ms.map Prod.fst).count key :=
    fun key => ((hperm.map Prod.fst).count_eq key).symm
  apply Prod.ext
  · rw [ReadMembers_accepted rf ms r hall, ReadMembers_accepted rf ms' r hall']
  · apply TableReaderOptions_eq
    · by_cases hocc : ∃ m ∈ ms, m.1 = "schema"
      · obtain ⟨⟨k, v⟩, hm, hk⟩ := hocc
        simp only at hk
        subst hk
        rw [ReadMembers_unique_schema rf ms r v hall hschema hm,
          ReadMembers_unique_schema rf ms' r v hall' (by rw [hcount]; exact hschema)
            (hperm.mem_iff.mp hm)]
      · rw [ReadMembers_frame_schema rf ms r (fun m hm hk => hocc ⟨m, hm, hk⟩),
          ReadMembers_frame_schema rf ms' r
            (fun m hm hk => hocc ⟨m, hperm.mem_iff.mpr hm, hk⟩)]
    · by_cases hocc : ∃ m ∈ ms, m.1 = "name"
      · obtain ⟨⟨k, v⟩, hm, hk⟩ := hocc
        simp only at hk
        subst hk
        rw [ReadMembers_unique_name rf ms r v hall hname hm,
          ReadMembers_unique_name rf ms' r v hall' (by rw [hcount]; exact hname)
            (hperm.mem_iff.mp hm)]
      · rw [ReadMembers_frame_name rf ms r (fun m hm hk => hocc ⟨m, hm, hk⟩),
          ReadMembers_frame_name rf ms' r
            (fun m hm hk => hocc ⟨m, hperm.mem_iff.mpr hm, hk⟩)]
    · by_cases hocc : ∃ m ∈ ms, m.1 = "fields"
      · obtain ⟨⟨k, v⟩, hm, hk⟩ := hocc
        simp only at hk
        subst hk
        have h1 := ReadMembers_unique_fields rf ms r v hall hfields hm
        have h2 := ReadMembers_unique_fields rf ms' r v hall'
          (by rw [hcount]; exact hfields) (hperm.mem_iff.mp hm)
        rw [h1] at h2
        exact Result.value.inj h2
      · rw [ReadMembers_frame_fields rf ms r (fun m hm hk => hocc ⟨m, hm, hk⟩),
          ReadMembers_frame_fields rf ms' r
            (fun m hm hk => hocc ⟨m, hperm.mem_iff.mpr hm, hk⟩)]

/-- The name of the tag of a value that is not a String is neither "string" nor "?". -/
theorem GetTypeName_not_string (v : Value) (h : v.GetType ≠ kStringType) :
    GetTypeName v.GetType ≠ "string" ∧ GetTypeName v.GetType ≠ "?" := by
  cases v with
  | string s => exact absurd rfl h
  | _ =>
    simp only [Value.GetType]
    decide

/-- The name of the tag of a value that is not an Array is neither "array" nor "?". -/
theorem GetTypeName_not_array (v : Value) (h : v.GetType ≠ kArrayType) :
    GetTypeName v.GetType ≠ "array" ∧ GetTypeName v.GetType ≠ "?" := by
  cases v with
  | array es => exact absurd rfl h
  | _ =>
    simp only [Value.GetType]
    decide

/-- The error of a turn of the loop on a member that is not accepted: the type-mismatch
error of `RequireFieldType` for a `schema`, `name` or `fields` member of the wrong type, and
the error of the field-list decoder for a `fields` member whose array it rejects. -/
theorem ReadMembers_single_error (key : String) (v : Value) (r : TableReaderOptions Field)
    (h : ¬ Accepted rf (key, v)) :
    (key = "schema" ∧ v.GetType ≠ kStringType ∧
      (ReadMembers rf [(key, v)] r).1 = Status.Fail StatusCode.Invalid
        ("type mismatch for field 'schema': expected string, received "
          ++ GetTypeName v.GetType)) ∨
    (key = "name" ∧ v.GetType ≠ kStringType ∧
      (ReadMembers rf [(key, v)] r).1 = Status.Fail StatusCode.Invalid
        ("type mismatch for field 'name': expected string, received "
          ++ GetTypeName v.GetType)) ∨
    (key = "fields" ∧ v.GetType ≠ kArrayType ∧
      (ReadMembers rf [(key, v)] r).1 = Status.Fail StatusCode.Invalid
        ("type mismatch for field 'fields': expected array, received "
          ++ GetTypeName v.GetType)) ∨
    (key = "fields" ∧ v.GetType = kArrayType ∧
      ∃ code msg, rf v.GetArray = Result.error code msg ∧
        (ReadMembers rf [(key, v)] r).1 = Status.Fail code msg) := by
  have hne : (ReadMembers rf [(key, v)] r).1 ≠ Status.OK :=
    fun e => h ((ReadMembers_single_ok_iff rf (key, v) r).mp e)
  by_cases hk : Recognized key
  · rcases hk with hk | hk | hk <;> subst hk
    · by_cases ht : v.GetType = kStringType
      · simp [ReadMembers_schema_ok rf v _ _ ht, ReadMembers_nil] at hne
      · refine Or.inl ⟨rfl, ht, ?_⟩
        rw [ReadMembers_schema_bad rf v [] r ht, RequireFieldType_other _ _ _ ht]
        rfl
    · by_cases ht : v.GetType = kStringType
      · simp [ReadMembers_name_ok rf v _ _ ht, ReadMembers_nil] at hne
      · refine Or.inr (Or.inl ⟨rfl, ht, ?_⟩)
        rw [ReadMembers_name_bad rf v [] r ht, RequireFieldType_other _ _ _ ht]
        rfl
    · by_cases ht : v.GetType = kArrayType
      · cases hfs : rf v.GetArray with
        | value fs => simp [ReadMembers_fields_ok rf v fs _ _ ht hfs, ReadMembers_nil] at hne
        | error code msg =>
          refine Or.inr (Or.inr (Or.inr ⟨rfl, ht, code, msg, rfl, ?_⟩))
          rw [ReadMembers_fields_rejected rf v code msg [] r ht hfs]
      · refine Or.inr (Or.inr (Or.inl ⟨rfl, ht, ?_⟩))
        rw [ReadMembers_fields_bad rf v [] r ht, RequireFieldType_other _ _ _ ht]
        rfl
  · simp [ReadMembers_skip rf key v _ _ hk, ReadMembers_nil] at hne

end Steps

/-! ## Properties of `GetTypeName` and `RequireFieldType` -/

/-- Claim C10: `GetTypeName` is a total mapping on type tags: Array gives "array", True and
False give "boolean", Number gives "number", Object gives "object", Null gives "null", String
gives "string" and every other tag gives "?"; its result is always one of these seven texts. -/
theorem GetTypeName_total :
    GetTypeName kArrayType = "array" ∧ GetTypeName kTrueType = "boolean" ∧
    GetTypeName kFalseType = "boolean" ∧ GetTypeName kNumberType = "number" ∧
    GetTypeName kObjectType = "object" ∧ GetTypeName kNullType = "null" ∧
    GetTypeName kStringType = "string" ∧
    (∀ t : TypeTag, t ∉ [kArrayType, kTrueType, kFalseType, kNumberType, kObjectType,
        kNullType, kStringType] → GetTypeName t = "?") ∧
    (∀ t : TypeTag, GetTypeName t ∈
        ["array", "boolean", "number", "object", "null", "string", "?"]) := by
  refine ⟨rfl, rfl, rfl, rfl, rfl, rfl, rfl, ?_, ?_⟩
  · intro t ht
    unfold GetTypeName
    split <;> simp_all
  · intro t
    unfold GetTypeName
    split <;> simp

/-- Witness of `GetTypeName_total`: the tag 7 is none of the seven enumerated tags. -/
theorem GetTypeName_total_witness :
    (7 : TypeTag) ∉ [kArrayType, kTrueType, kFalseType, kNumberType, kObjectType, kNullType,
      kStringType] ∧ GetTypeName 7 = "?" :=
  ⟨by decide, GetTypeName_total.2.2.2.2.2.2.2.1 7 (by decide)⟩

/-- Claim C9: `RequireFieldType value type field` returns OK if and only if the tag of
`value` equals `type`; otherwise it returns an Invalid error whose message is
"type mismatch for field '" ++ field ++ "': expected " ++ GetTypeName type ++ ", received "
++ GetTypeName of the tag of `value`. -/
theorem RequireFieldType_spec (value : Value) (type : TypeTag) (field : String) :
    (RequireFieldType value type field = Status.OK ↔ value.GetType = type) ∧
    (¬ value.GetType = type →
      RequireFieldType value type field = Status.Fail StatusCode.Invalid
        ("type mismatch for field '" ++ field ++ "': expected " ++ GetTypeName type
          ++ ", received " ++ GetTypeName value.GetType)) := by
  constructor
  · by_cases h : value.GetType = type
    · simp [RequireFieldType, h]
    · simp [RequireFieldType, h]
  · intro h
    exact RequireFieldType_other value type field h

/-- Witness of `RequireFieldType_spec`: a Number where a String is required. -/
theorem RequireFieldType_spec_witness :
    ¬ (Value.number 42).GetType = kStringType ∧
    RequireFieldType (Value.number 42) kStringType "schema" = Status.Fail StatusCode.Invalid
      "type mismatch for field 'schema': expected string, received number" :=
  ⟨by decide, (RequireFieldType_spec (Value.number 42) kStringType "schema").2 (by decide)⟩

/-! ## Properties of `ReadFrom` -/

/-- Claim C1: for every document whose top-level node is not an Object, `ReadFrom` returns OK
and the resulting record, read into a freshly constructed one, has `schema_name` absent,
`table_name` absent and `fields` empty; more generally the call leaves any record as it was. -/
theorem ReadFrom_not_object {Field : Type} (rf : FieldsReader Field) (doc : Value)
    (h : doc.GetType ≠ kObjectType) :
    (TableReaderOptions.ReadFrom rf (TableReaderOptions.empty Field) doc).1 = Status.OK ∧
    (TableReaderOptions.ReadFrom rf (TableReaderOptions.empty Field) doc).2.schema_name = none ∧
    (TableReaderOptions.ReadFrom rf (TableReaderOptions.empty Field) doc).2.table_name = none ∧
    (TableReaderOptions.ReadFrom rf (TableReaderOptions.empty Field) doc).2.fields = [] ∧
    (∀ r : TableReaderOptions Field, TableReaderOptions.ReadFrom rf r doc = (Status.OK, r)) := by
  have hall : ∀ r : TableReaderOptions Field,
      TableReaderOptions.ReadFrom rf r doc = (Status.OK, r) := by
    intro r
    simp [TableReaderOptions.ReadFrom, Value.IsObject, h]
  simp [hall, TableReaderOptions.empty]

/-- Witness of `ReadFrom_not_object`: the bare array `[1, "x"]`. -/
theorem ReadFrom_not_object_witness :
    (Value.array [Value.number 1, Value.string "x"]).GetType ≠ kObjectType ∧
    (TableReaderOptions.ReadFrom exampleReadFields (TableReaderOptions.empty String)
      (Value.array [Value.number 1, Value.string "x"])).1 = Status.OK ∧
    (TableReaderOptions.ReadFrom exampleReadFields (TableReaderOptions.empty String)
      (Value.array [Value.number 1, Value.string "x"])).2.schema_name = none :=
  have h := ReadFrom_not_object exampleReadFields
    (Value.array [Value.number 1, Value.string "x"]) (by decide)
  ⟨by decide, h.1, h.2.1⟩

/-- Claim C2: for every Object document in which each of the keys "schema", "name", "fields"
occurs at most once and every member is accepted (every "schema" or "name" value is a String,
every "fields" value is an Array accepted by the field-list decoder), `ReadFrom` into a freshly
constructed record returns OK and the record is exactly: `schema_name` is the text of the
"schema" string, unchanged, or absent if the key does not occur; `table_name` likewise for
"name"; `fields` is the sequence returned by the field-list decoder for the "fields" array, or
empty if the key does not occur. -/
theorem ReadFrom_well_formed {Field : Type} (rf : FieldsReader Field)
    (ms : List (String × Value))
    (hschema : (ms.map Prod.fst).count "schema" ≤ 1)
    (hname : (ms.map Prod.fst).count "name" ≤ 1)
    (hfields : (ms.map Prod.fst).count "fields" ≤ 1)
    (hacc : ∀ m ∈ ms, Accepted rf m) :
    (TableReaderOptions.ReadFrom rf (TableReaderOptions.empty Field) (Value.object ms)).1
      = Status.OK ∧
    (∀ s, ("schema", Value.string s) ∈ ms →
      (TableReaderOptions.ReadFrom rf (TableReaderOptions.empty Field)
        (Value.object ms)).2.schema_name = some s) ∧
    ((∀ m ∈ ms, m.1 ≠ "schema") →
      (TableReaderOptions.ReadFrom rf (TableReaderOptions.empty Field)
        (Value.object ms)).2.schema_name = none) ∧
    (∀ s, ("name", Value.string s) ∈ ms →
      (TableReaderOptions.ReadFrom rf (TableReaderOptions.empty Field)
        (Value.object ms)).2.table_name = some s) ∧
    ((∀ m ∈ ms, m.1 ≠ "name") →
      (TableReaderOptions.ReadFrom rf (TableReaderOptions.empty Field)
        (Value.object ms)).2.table_name = none) ∧
    (∀ elements, ("fields", Value.array elements) ∈ ms →
      rf elements = Result.value (TableReaderOptions.ReadFrom rf (TableReaderOptions.empty Field)
        (Value.object ms)).2.fields) ∧
    ((∀ m ∈ ms, m.1 ≠ "fields") →
      (TableReaderOptions.ReadFrom rf (TableReaderOptions.empty Field)
        (Value.object ms)).2.fields = []) := by
  have hok : ∀ l, l = ms → (ReadMembers rf l (TableReaderOptions.empty Field)).1 = Status.OK :=
    fun l hl => ReadMembers_accepted rf l _ (hl ▸ hacc)
  have hlast : ∀ (key : String) (v : Value) (pre post : List (String × Value)),
      ms = pre ++ (key, v) :: post → (ms.map Prod.fst).count key ≤ 1 →
      ∀ m ∈ post, m.1 ≠ key := by
    intro key v pre post hms hcount m hm hkey
    rw [hms] at hcount
    simp only [List.map_append, List.map_cons, List.count_append, List.count_cons_self]
      at hcount
    have hpos : 0 < List.count key (List.map Prod.fst post) :=
      List.count_pos_iff.mpr (List.mem_map.mpr ⟨m, hm, hkey⟩)
    omega
  rw [ReadFrom_object]
  refine ⟨hok ms rfl, ?_, ?_, ?_, ?_, ?_, ?_⟩
  · intro s hs
    obtain ⟨pre, post, hms⟩ := List.append_of_mem hs
    have h := ReadMembers_last_schema rf pre post (Value.string s) _ (hok _ hms.symm)
      (hlast _ _ _ _ hms hschema)
    rw [hms]
    simpa [Value.GetString] using h
  · intro hno
    rw [ReadMembers_frame_schema rf ms _ hno]
    rfl
  · intro s hs
    obtain ⟨pre, post, hms⟩ := List.append_of_mem hs
    have h := ReadMembers_last_name rf pre post (Value.string s) _ (hok _ hms.symm)
      (hlast _ _ _ _ hms hname)
    rw [hms]
    simpa [Value.GetString] using h
  · intro hno
    rw [ReadMembers_frame_name rf ms _ hno]
    rfl
  · intro elements hs
    obtain ⟨pre, post, hms⟩ := List.append_of_mem hs
    have h := ReadMembers_last_fields rf pre post (Value.array elements) _ (hok _ hms.symm)
      (hlast _ _ _ _ hms hfields)
    rw [hms]
    simpa [Value.GetArray] using h
  · intro hno
    rw [ReadMembers_frame_fields rf ms _ hno]
    rfl

/-- Witness of `ReadFrom_well_formed`: the document `{"schema": "main", "name": "t1"}` gives
`schema_name = "main"`, `table_name = "t1"` and `fields` empty. -/
theorem ReadFrom_well_formed_witness :
    (([("schema", Value.string "main"), ("name", Value.string "t1")].map Prod.fst).count
      "schema" ≤ 1) ∧
    (∀ m ∈ [("schema", Value.string "main"), ("name", Value.string "t1")],
      Accepted exampleReadFields m) ∧
    (TableReaderOptions.ReadFrom exampleReadFields (TableReaderOptions.empty String)
      (Value.object [("schema", Value.string "main"), ("name", Value.string "t1")])).1
      = Status.OK ∧
    (TableReaderOptions.ReadFrom exampleReadFields (TableReaderOptions.empty String)
      (Value.object [("schema", Value.string "main"), ("name", Value.string "t1")])).2.schema_name
      = some "main" ∧
    (TableReaderOptions.ReadFrom exampleReadFields (TableReaderOptions.empty String)
      (Value.object [("schema", Value.string "main"), ("name", Value.string "t1")])).2.table_name
      = some "t1" ∧
    (TableReaderOptions.ReadFrom exampleReadFields (TableReaderOptions.empty String)
      (Value.object [("schema", Value.string "main"), ("name", Value.string "t1")])).2.fields
      = [] :=
  have hacc : ∀ m ∈ [("schema", Value.string "main"), ("name", Value.string "t1")],
      Accepted exampleReadFields m := by
    intro m hm
    simp only [List.mem_cons, List.mem_singleton, List.not_mem_nil, or_false] at hm
    rcases hm with hm | hm <;> subst hm <;> decide
  have h := ReadFrom_well_formed exampleReadFields
    [("schema", Value.string "main"), ("name", Value.string "t1")]
    (by decide) (by decide) (by decide) hacc
  ⟨by decide, hacc, h.1, h.2.1 "main" (by simp), h.2.2.2.1 "t1" (by simp),
    h.2.2.2.2.2.2 (by simp)⟩

/-- Claim C3: for every Object document whose first failing member is a recognized key with
a value of the wrong type, `ReadFrom` fails with an Invalid error whose message is exactly
"type mismatch for field '<key>': expected <E>, received <R>", where <key> is the key of the
member, <E> is "string" for "schema" and "name" and "array" for "fields", and <R> is
`GetTypeName` of the tag of the value. -/
theorem ReadFrom_type_mismatch {Field : Type} (rf : FieldsReader Field)
    (r : TableReaderOptions Field) (pre post : List (String × Value)) (key : String)
    (v : Value) (hpre : ∀ x ∈ pre, Accepted rf x) :
    ((key = "schema" ∨ key = "name") → v.GetType ≠ kStringType →
      (TableReaderOptions.ReadFrom rf r (Value.object (pre ++ (key, v) :: post))).1
        = Status.Fail StatusCode.Invalid
          ("type mismatch for field '" ++ key ++ "': expected string, received "
            ++ GetTypeName v.GetType)) ∧
    (key = "fields" → v.GetType ≠ kArrayType →
      (TableReaderOptions.ReadFrom rf r (Value.object (pre ++ (key, v) :: post))).1
        = Status.Fail StatusCode.Invalid
          ("type mismatch for field '" ++ key ++ "': expected array, received "
            ++ GetTypeName v.GetType)) := by
  have e1 : ∀ a b : String, a ++ "': expected " ++ GetTypeName kStringType ++ ", received " ++ b
      = a ++ "': expected string, received " ++ b := by
    intro a b
    have : GetTypeName kStringType = "string" := rfl
    rw [this]
    simp only [String.append_assoc]
    rfl
  have e2 : ∀ a b : String, a ++ "': expected " ++ GetTypeName kArrayType ++ ", received " ++ b
      = a ++ "': expected array, received " ++ b := by
    intro a b
    have : GetTypeName kArrayType = "array" := rfl
    rw [this]
    simp only [String.append_assoc]
    rfl
  constructor
  · intro hkey ht
    rcases hkey with hkey | hkey <;> subst hkey
    · have hm : ¬ Accepted rf ("schema", v) := fun h => ht (h.1 rfl)
      rw [ReadFrom_object, ReadMembers_first_failing rf pre post _ r hpre hm,
        ReadMembers_schema_bad rf v [] r ht, RequireFieldType_other _ _ _ ht]
      exact congrArg _ (e1 _ _)
    · have hm : ¬ Accepted rf ("name", v) := fun h => ht (h.2.1 rfl)
      rw [ReadFrom_object, ReadMembers_first_failing rf pre post _ r hpre hm,
        ReadMembers_name_bad rf v [] r ht, RequireFieldType_other _ _ _ ht]
      exact congrArg _ (e1 _ _)
  · intro hkey ht
    subst hkey
    have hm : ¬ Accepted rf ("fields", v) := fun h => ht (h.2.2 rfl).1
    rw [ReadFrom_object, ReadMembers_first_failing rf pre post _ r hpre hm,
      ReadMembers_fields_bad rf v [] r ht, RequireFieldType_other _ _ _ ht]
    exact congrArg _ (e2 _ _)

/-- Witness of `ReadFrom_type_mismatch`: the documents `{"schema": 42}` and
`{"fields": "not-an-array"}`. -/
theorem ReadFrom_type_mismatch_witness :
    (TableReaderOptions.ReadFrom exampleReadFields (TableReaderOptions.empty String)
      (Value.object [("schema", Value.number 42)])).1
      = Status.Fail StatusCode.Invalid
        "type mismatch for field 'schema': expected string, received number" ∧
    (TableReaderOptions.ReadFrom exampleReadFields (TableReaderOptions.empty String)
      (Value.object [("fields", Value.string "not-an-array")])).1
      = Status.Fail StatusCode.Invalid
        "type mismatch for field 'fields': expected array, received string" :=
  ⟨(ReadFrom_type_mismatch exampleReadFields (TableReaderOptions.empty String) [] []
      "schema" (Value.number 42) (by simp)).1 (Or.inl rfl) (by decide),
   (ReadFrom_type_mismatch exampleReadFields (TableReaderOptions.empty String) [] []
      "fields" (Value.string "not-an-array") (by simp)).2 rfl (by decide)⟩

/-- Claim C4: for every Object document whose first failing member is a "fields" member with
an Array value that the field-list decoder rejects with an error, `ReadFrom` fails and the
status it returns is exactly that error: same code and same message. -/
theorem ReadFrom_fields_error {Field : Type} (rf : FieldsReader Field)
    (r : TableReaderOptions Field) (pre post : List (String × Value))
    (elements : List Value) (code : StatusCode) (msg : String)
    (hpre : ∀ x ∈ pre, Accepted rf x) (hrej : rf elements = Result.error code msg) :
    (TableReaderOptions.ReadFrom rf r
      (Value.object (pre ++ ("fields", Value.array elements) :: post))).1
      = Status.Fail code msg ∧
    (TableReaderOptions.ReadFrom rf r
      (Value.object (pre ++ ("fields", Value.array elements) :: post))).1
      = (rf elements).status := by
  have hm : ¬ Accepted rf ("fields", Value.array elements) := by
    intro h
    have := (h.2.2 rfl).2
    simp [Value.GetArray, hrej, Result.ok] at this
  have hst : (TableReaderOptions.ReadFrom rf r
      (Value.object (pre ++ ("fields", Value.array elements) :: post))).1
      = Status.Fail code msg := by
    rw [ReadFrom_object, ReadMembers_first_failing rf pre post _ r hpre hm,
      ReadMembers_fields_rejected rf (Value.array elements) code msg [] r rfl
        (by simpa [Value.GetArray] using hrej)]
  exact ⟨hst, by rw [hst, hrej]; rfl⟩

/-- Witness of `ReadFrom_fields_error`: in `{"name": "t", "fields": ["a", 1], "schema": 2}` the
array holds a number, which the example decoder rejects. -/
theorem ReadFrom_fields_error_witness :
    (∀ x ∈ [("name", Value.string "t")], Accepted exampleReadFields x) ∧
    exampleReadFields [Value.string "a", Value.number 1]
      = Result.error StatusCode.Invalid "invalid field" ∧
    (TableReaderOptions.ReadFrom exampleReadFields (TableReaderOptions.empty String)
      (Value.object ([("name", Value.string "t")]
        ++ ("fields", Value.array [Value.string "a", Value.number 1])
          :: [("schema", Value.number 2)]))).1
      = Status.Fail StatusCode.Invalid "invalid field" :=
  have hacc : ∀ x ∈ [("name", Value.string "t")], Accepted exampleReadFields x := by
    intro x hx
    simp only [List.mem_singleton] at hx
    subst hx
    decide
  ⟨hacc, by decide,
    (ReadFrom_fields_error exampleReadFields (TableReaderOptions.empty String)
      [("name", Value.string "t")] [("schema", Value.number 2)]
      [Value.string "a", Value.number 1] StatusCode.Invalid "invalid field" hacc
      (by decide)).1⟩

/-- Claim C5: unrecognized keys have no observable effect: for every Object document,
`ReadFrom` on the document and `ReadFrom` on the document with every member whose key is not
one of "schema", "name", "fields" removed give the same outcome (same status, same record),
whatever the removed values are; and `{"unknownKey": true, "name": "orders"}` succeeds with
`table_name = "orders"`. -/
theorem ReadFrom_ignores_unrecognized :
    (∀ (Field : Type) (rf : FieldsReader Field) (r : TableReaderOptions Field)
      (ms : List (String × Value)),
      TableReaderOptions.ReadFrom rf r (Value.object ms)
        = TableReaderOptions.ReadFrom rf r
            (Value.object (ms.filter (fun m => decide (Recognized m.1))))) ∧
    TableReaderOptions.ReadFrom exampleReadFields (TableReaderOptions.empty String)
        (Value.object [("unknownKey", Value.bTrue), ("name", Value.string "orders")])
      = (Status.OK, { schema_name := none, table_name := some "orders", fields := [] }) := by
  constructor
  · intro Field rf r ms
    rw [ReadFrom_object, ReadFrom_object, ReadMembers_filter]
  · decide

/-- Claim C6: last occurrence wins: when `ReadFrom` succeeds on an Object document, then for
the last member with a recognized key (no later member has that key) the target of the key
holds the value of that member: `schema_name` the string of the last "schema" member,
`table_name` the string of the last "name" member, `fields` the sequence decoded from the
array of the last "fields" member. -/
theorem ReadFrom_last_wins {Field : Type} (rf : FieldsReader Field)
    (r : TableReaderOptions Field) (pre post : List (String × Value)) (key : String)
    (v : Value)
    (hok : (TableReaderOptions.ReadFrom rf r
      (Value.object (pre ++ (key, v) :: post))).1 = Status.OK)
    (hlast : ∀ m ∈ post, m.1 ≠ key) :
    (key = "schema" → v.GetType = kStringType ∧
      (TableReaderOptions.ReadFrom rf r
        (Value.object (pre ++ (key, v) :: post))).2.schema_name = some v.GetString) ∧
    (key = "name" → v.GetType = kStringType ∧
      (TableReaderOptions.ReadFrom rf r
        (Value.object (pre ++ (key, v) :: post))).2.table_name = some v.GetString) ∧
    (key = "fields" → v.GetType = kArrayType ∧
      rf v.GetArray = Result.value (TableReaderOptions.ReadFrom rf r
        (Value.object (pre ++ (key, v) :: post))).2.fields) := by
  rw [ReadFrom_object] at hok ⊢
  have hacc := ReadMembers_ok_accepted rf _ r hok (key, v) (by simp)
  refine ⟨?_, ?_, ?_⟩ <;> intro hkey <;> subst hkey
  · exact ⟨hacc.1 rfl, ReadMembers_last_schema rf pre post v r hok hlast⟩
  · exact ⟨hacc.2.1 rfl, ReadMembers_last_name rf pre post v r hok hlast⟩
  · exact ⟨(hacc.2.2 rfl).1, ReadMembers_last_fields rf pre post v r hok hlast⟩

/-- Witness of `ReadFrom_last_wins`: `{"name": "a", "name": "b"}` gives `table_name = "b"`. -/
theorem ReadFrom_last_wins_witness :
    (TableReaderOptions.ReadFrom exampleReadFields (TableReaderOptions.empty String)
      (Value.object ([("name", Value.string "a")] ++ ("name", Value.string "b") :: []))).1
      = Status.OK ∧
    (TableReaderOptions.ReadFrom exampleReadFields (TableReaderOptions.empty String)
      (Value.object ([("name", Value.string "a")] ++ ("name", Value.string "b") :: []))).2.table_name
      = some "b" :=
  ⟨by decide,
    ((ReadFrom_last_wins exampleReadFields (TableReaderOptions.empty String)
      [("name", Value.string "a")] [] "name" (Value.string "b") (by decide)
      (by simp)).2.1 rfl).2⟩

/-- Claim C7: fail-fast on the first error: for every Object document with at least one
failing member, the status returned by `ReadFrom` is the error of the first such member in
document order: for a "schema" or "name" member that is not a String, or a "fields" member
that is not an Array, the Invalid error with the type-mismatch message of that member, and
for a "fields" member whose array the field-list decoder rejects, the error of the decoder.
It is the error `ReadFrom` returns for that member alone, whatever the record. The members
after it are not processed: replacing them by any other members changes neither the
returned error nor the record. -/
theorem ReadFrom_fail_fast {Field : Type} (rf : FieldsReader Field)
    (r : TableReaderOptions Field) (ms : List (String × Value))
    (h : ∃ m ∈ ms, ¬ Accepted rf m) :
    ∃ pre key v post, ms = pre ++ (key, v) :: post ∧
      (∀ x ∈ pre, Accepted rf x) ∧ ¬ Accepted rf (key, v) ∧
      (TableReaderOptions.ReadFrom rf r (Value.object ms)).1 ≠ Status.OK ∧
      ((key = "schema" ∧ v.GetType ≠ kStringType ∧
          (TableReaderOptions.ReadFrom rf r (Value.object ms)).1
            = Status.Fail StatusCode.Invalid
              ("type mismatch for field 'schema': expected string, received "
                ++ GetTypeName v.GetType)) ∨
        (key = "name" ∧ v.GetType ≠ kStringType ∧
          (TableReaderOptions.ReadFrom rf r (Value.object ms)).1
            = Status.Fail StatusCode.Invalid
              ("type mismatch for field 'name': expected string, received "
                ++ GetTypeName v.GetType)) ∨
        (key = "fields" ∧ v.GetType ≠ kArrayType ∧
          (TableReaderOptions.ReadFrom rf r (Value.object ms)).1
            = Status.Fail StatusCode.Invalid
              ("type mismatch for field 'fields': expected array, received "
                ++ GetTypeName v.GetType)) ∨
        (key = "fields" ∧ v.GetType = kArrayType ∧
          ∃ code msg, rf v.GetArray = Result.error code msg ∧
            (TableReaderOptions.ReadFrom rf r (Value.object ms)).1
              = Status.Fail code msg)) ∧
      (∀ r' : TableReaderOptions Field,
        (TableReaderOptions.ReadFrom rf r (Value.object ms)).1
          = (TableReaderOptions.ReadFrom rf r' (Value.object [(key, v)])).1) ∧
      (∀ post' : List (String × Value),
        TableReaderOptions.ReadFrom rf r (Value.object (pre ++ (key, v) :: post'))
          = TableReaderOptions.ReadFrom rf r (Value.object ms)) := by
  obtain ⟨pre, ⟨key, v⟩, post, hms, hpre, hm⟩ := exists_first_failing rf ms h
  have hst : (TableReaderOptions.ReadFrom rf r (Value.object ms)).1
      = (ReadMembers rf [(key, v)] r).1 := by
    rw [ReadFrom_object, hms, ReadMembers_first_failing rf pre post (key, v) r hpre hm]
  refine ⟨pre, key, v, post, hms, hpre, hm, ?_, ?_, ?_, ?_⟩
  · rw [hst]
    exact fun e => hm ((ReadMembers_single_ok_iff rf (key, v) r).mp e)
  · rw [hst]
    exact ReadMembers_single_error rf key v r hm
  · intro r'
    rw [hst, ReadFrom_object]
    exact ReadMembers_single_status rf (key, v) r r'
  · intro post'
    rw [ReadFrom_object, ReadFrom_object, hms,
      ReadMembers_first_failing rf pre post (key, v) r hpre hm,
      ReadMembers_first_failing rf pre post' (key, v) r hpre hm]

/-- Witness of `ReadFrom_fail_fast`: in `{"name": "t", "schema": 42, "fields": "x"}` the
members "schema" and "fields" both fail, and the returned error is that of "schema". -/
theorem ReadFrom_fail_fast_witness :
    (∃ m ∈ exampleTwoFailing, ¬ Accepted exampleReadFields m) ∧
    (TableReaderOptions.ReadFrom exampleReadFields (TableReaderOptions.empty String)
      (Value.object exampleTwoFailing)).1
      = Status.Fail StatusCode.Invalid
        "type mismatch for field 'schema': expected string, received number" ∧
    (∃ pre key v post, exampleTwoFailing = pre ++ (key, v) :: post ∧
      (∀ x ∈ pre, Accepted exampleReadFields x) ∧ ¬ Accepted exampleReadFields (key, v) ∧
      (TableReaderOptions.ReadFrom exampleReadFields (TableReaderOptions.empty String)
        (Value.object exampleTwoFailing)).1 ≠ Status.OK ∧
      ((key = "schema" ∧ v.GetType ≠ kStringType ∧
          (TableReaderOptions.ReadFrom exampleReadFields (TableReaderOptions.empty String)
        (Value.object exampleTwoFailing)).1
            = Status.Fail StatusCode.Invalid
              ("type mismatch for field 'schema': expected string, received "
                ++ GetTypeName v.GetType)) ∨
        (key = "name" ∧ v.GetType ≠ kStringType ∧
          (TableReaderOptions.ReadFrom exampleReadFields (TableReaderOptions.empty String)
        (Value.object exampleTwoFailing)).1
            = Status.Fail StatusCode.Invalid
              ("type mismatch for field 'name': expected string, received "
                ++ GetTypeName v.GetType)) ∨
        (key = "fields" ∧ v.GetType ≠ kArrayType ∧
          (TableReaderOptions.ReadFrom exampleReadFields (TableReaderOptions.empty String)
        (Value.object exampleTwoFailing)).1
            = Status.Fail StatusCode.Invalid
              ("type mismatch for field 'fields': expected array, received "
                ++ GetTypeName v.GetType)) ∨
        (key = "fields" ∧ v.GetType = kArrayType ∧
          ∃ code msg, exampleReadFields v.GetArray = Result.error code msg ∧
            (TableReaderOptions.ReadFrom exampleReadFields (TableReaderOptions.empty String)
        (Value.object exampleTwoFailing)).1
              = Status.Fail code msg)) ∧
      (∀ r' : TableReaderOptions String,
        (TableReaderOptions.ReadFrom exampleReadFields (TableReaderOptions.empty String)
        (Value.object exampleTwoFailing)).1
          = (TableReaderOptions.ReadFrom exampleReadFields r' (Value.object [(key, v)])).1) ∧
      (∀ post' : List (String × Value),
        TableReaderOptions.ReadFrom exampleReadFields (TableReaderOptions.empty String)
            (Value.object (pre ++ (key, v) :: post'))
          = TableReaderOptions.ReadFrom exampleReadFields (TableReaderOptions.empty String)
            (Value.object exampleTwoFailing))) :=
  have hbad : ∃ m ∈ exampleTwoFailing, ¬ Accepted exampleReadFields m :=
    ⟨("schema", Value.number 42), List.mem_cons_of_mem _ (List.mem_cons_self _ _),
      by decide⟩
  ⟨hbad, by decide,
    ReadFrom_fail_fast exampleReadFields (TableReaderOptions.empty String) exampleTwoFailing
      hbad⟩

/-- Counterexample to claim C8 as stated: on `{"name": "a", "schema": 42}` the call fails at
the member "schema", and the record after the failed call holds `table_name = "a"`, assigned
by the member processed before the failing one; it is not as it was before the call. -/
theorem ReadFrom_failure_keeps_assignments :
    (TableReaderOptions.ReadFrom exampleReadFields (TableReaderOptions.empty String)
      (Value.object [("name", Value.string "a"), ("schema", Value.number 42)])).1
      = Status.Fail StatusCode.Invalid
        "type mismatch for field 'schema': expected string, received number" ∧
    (TableReaderOptions.ReadFrom exampleReadFields (TableReaderOptions.empty String)
      (Value.object [("name", Value.string "a"), ("schema", Value.number 42)])).2.table_name
      = some "a" ∧
    (TableReaderOptions.ReadFrom exampleReadFields (TableReaderOptions.empty String)
      (Value.object [("name", Value.string "a"), ("schema", Value.number 42)])).2
      ≠ TableReaderOptions.empty String := by
  decide

/-- Claim C8, amended: whenever `ReadFrom` fails, the document is an Object with a first
failing member, and the record is not rolled back: after the failed call it is the record
left by a (successful) `ReadFrom` of the members before the failing one. Each of
`schema_name`, `table_name`, `fields` holds the value assigned by the last member with its
key among the members before the failing one, or, when there is no such member, the value it
had before the call; the failing member and the members after it assign nothing. When no
member before the failing one has a recognized key, the record is as it was before the
call. -/
theorem ReadFrom_failure_record {Field : Type} (rf : FieldsReader Field)
    (r : TableReaderOptions Field) (doc : Value)
    (hfail : (TableReaderOptions.ReadFrom rf r doc).1 ≠ Status.OK) :
    ∃ pre m post, doc = Value.object (pre ++ m :: post) ∧
      (∀ x ∈ pre, Accepted rf x) ∧ ¬ Accepted rf m ∧
      (TableReaderOptions.ReadFrom rf r (Value.object pre)).1 = Status.OK ∧
      (TableReaderOptions.ReadFrom rf r doc).2
        = (TableReaderOptions.ReadFrom rf r (Value.object pre)).2 ∧
      (∀ a v b, pre = a ++ ("schema", v) :: b → (∀ x ∈ b, x.1 ≠ "schema") →
        (TableReaderOptions.ReadFrom rf r doc).2.schema_name = some v.GetString) ∧
      (∀ a v b, pre = a ++ ("name", v) :: b → (∀ x ∈ b, x.1 ≠ "name") →
        (TableReaderOptions.ReadFrom rf r doc).2.table_name = some v.GetString) ∧
      (∀ a v b, pre = a ++ ("fields", v) :: b → (∀ x ∈ b, x.1 ≠ "fields") →
        rf v.GetArray = Result.value (TableReaderOptions.ReadFrom rf r doc).2.fields) ∧
      ((∀ x ∈ pre, x.1 ≠ "schema") →
        (TableReaderOptions.ReadFrom rf r doc).2.schema_name = r.schema_name) ∧
      ((∀ x ∈ pre, x.1 ≠ "name") →
        (TableReaderOptions.ReadFrom rf r doc).2.table_name = r.table_name) ∧
      ((∀ x ∈ pre, x.1 ≠ "fields") →
        (TableReaderOptions.ReadFrom rf r doc).2.fields = r.fields) ∧
      ((∀ x ∈ pre, ¬ Recognized x.1) → (TableReaderOptions.ReadFrom rf r doc).2 = r) := by
  obtain ⟨ms, hdoc, hbad⟩ := ReadFrom_fail_object rf r doc hfail
  obtain ⟨pre, m, post, hms, hpre, hm⟩ := exists_first_failing rf ms hbad
  have hrec : (TableReaderOptions.ReadFrom rf r doc).2 = (ReadMembers rf pre r).2 := by
    rw [hdoc, hms, ReadFrom_object, ReadMembers_first_failing rf pre post m r hpre hm]
  have hok : (ReadMembers rf pre r).1 = Status.OK := ReadMembers_accepted rf pre r hpre
  refine ⟨pre, m, post, by rw [hdoc, hms], hpre, hm, ?_, ?_, ?_, ?_, ?_, ?_, ?_, ?_, ?_⟩
  · rw [ReadFrom_object]
    exact hok
  · rw [hrec, ReadFrom_object]
  · intro a v b hab hb
    subst hab
    rw [hrec]
    exact ReadMembers_last_schema rf a b v r hok hb
  · intro a v b hab hb
    subst hab
    rw [hrec]
    exact ReadMembers_last_name rf a b v r hok hb
  · intro a v b hab hb
    subst hab
    rw [hrec]
    exact ReadMembers_last_fields rf a b v r hok hb
  · intro hno
    rw [hrec]
    exact ReadMembers_frame_schema rf pre r hno
  · intro hno
    rw [hrec]
    exact ReadMembers_frame_name rf pre r hno
  · intro hno
    rw [hrec]
    exact ReadMembers_frame_fields rf pre r hno
  · intro hno
    rw [hrec, ReadMembers_unrecognized rf pre r hno]

/-- Witness of `ReadFrom_failure_record`: the document `{"name": "a", "schema": 42}` read
into a record that holds `table_name = "t"` and the field `f0`: after the failed call
`table_name` is "a" and `fields` still holds `f0`. -/
theorem ReadFrom_failure_record_witness :
    (TableReaderOptions.ReadFrom exampleReadFields exampleFilledRecord
      exampleNameThenSchema).1 ≠ Status.OK ∧
    (TableReaderOptions.ReadFrom exampleReadFields exampleFilledRecord
      exampleNameThenSchema).2
      = { schema_name := none, table_name := some "a", fields := ["f0"] } ∧
    (∃ pre m post, exampleNameThenSchema = Value.object (pre ++ m :: post) ∧
      (∀ x ∈ pre, Accepted exampleReadFields x) ∧ ¬ Accepted exampleReadFields m ∧
      (TableReaderOptions.ReadFrom exampleReadFields exampleFilledRecord (Value.object pre)).1
        = Status.OK ∧
      (TableReaderOptions.ReadFrom exampleReadFields exampleFilledRecord
          exampleNameThenSchema).2
        = (TableReaderOptions.ReadFrom exampleReadFields exampleFilledRecord (Value.object pre)).2 ∧
      (∀ a v b, pre = a ++ ("schema", v) :: b → (∀ x ∈ b, x.1 ≠ "schema") →
        (TableReaderOptions.ReadFrom exampleReadFields exampleFilledRecord
          exampleNameThenSchema).2.schema_name = some v.GetString) ∧
      (∀ a v b, pre = a ++ ("name", v) :: b → (∀ x ∈ b, x.1 ≠ "name") →
        (TableReaderOptions.ReadFrom exampleReadFields exampleFilledRecord
          exampleNameThenSchema).2.table_name = some v.GetString) ∧
      (∀ a v b, pre = a ++ ("fields", v) :: b → (∀ x ∈ b, x.1 ≠ "fields") →
        exampleReadFields v.GetArray = Result.value
          (TableReaderOptions.ReadFrom exampleReadFields exampleFilledRecord
          exampleNameThenSchema).2.fields) ∧
      ((∀ x ∈ pre, x.1 ≠ "schema") →
        (TableReaderOptions.ReadFrom exampleReadFields exampleFilledRecord
          exampleNameThenSchema).2.schema_name
          = exampleFilledRecord.schema_name) ∧
      ((∀ x ∈ pre, x.1 ≠ "name") →
        (TableReaderOptions.ReadFrom exampleReadFields exampleFilledRecord
          exampleNameThenSchema).2.table_name
          = exampleFilledRecord.table_name) ∧
      ((∀ x ∈ pre, x.1 ≠ "fields") →
        (TableReaderOptions.ReadFrom exampleReadFields exampleFilledRecord
          exampleNameThenSchema).2.fields
          = exampleFilledRecord.fields) ∧
      ((∀ x ∈ pre, ¬ Recognized x.1) →
        (TableReaderOptions.ReadFrom exampleReadFields exampleFilledRecord
          exampleNameThenSchema).2
          = exampleFilledRecord)) :=
  ⟨by decide, by decide,
    ReadFrom_failure_record exampleReadFields exampleFilledRecord exampleNameThenSchema
      (by decide)⟩

/-- Claim C13: decoding the same document twice, with two calls of `ReadFrom` each into its
own freshly constructed record and with the same field-list decoder, yields the same status
and two records that are equal member by member (`schema_name`, `table_name`, `fields`);
the status is the same even when the two records differ before the calls. -/
theorem ReadFrom_twice {Field : Type} (rf : FieldsReader Field) (doc : Value) :
    (TableReaderOptions.ReadFrom rf (TableReaderOptions.empty Field) doc).1
      = (TableReaderOptions.ReadFrom rf (TableReaderOptions.empty Field) doc).1 ∧
    (TableReaderOptions.ReadFrom rf (TableReaderOptions.empty Field) doc).2.schema_name
      = (TableReaderOptions.ReadFrom rf (TableReaderOptions.empty Field) doc).2.schema_name ∧
    (TableReaderOptions.ReadFrom rf (TableReaderOptions.empty Field) doc).2.table_name
      = (TableReaderOptions.ReadFrom rf (TableReaderOptions.empty Field) doc).2.table_name ∧
    (TableReaderOptions.ReadFrom rf (TableReaderOptions.empty Field) doc).2.fields
      = (TableReaderOptions.ReadFrom rf (TableReaderOptions.empty Field) doc).2.fields ∧
    (∀ a b : TableReaderOptions Field,
      (TableReaderOptions.ReadFrom rf a doc).1 = (TableReaderOptions.ReadFrom rf b doc).1) := by
  refine ⟨rfl, rfl, rfl, rfl, ?_⟩
  intro a b
  cases doc with
  | object ms => rw [ReadFrom_object, ReadFrom_object]; exact ReadMembers_status rf ms a b
  | _ => simp [TableReaderOptions.ReadFrom, Value.IsObject, Value.GetType]

/-- Claim C14: exact success condition: `ReadFrom` returns OK if and only if the document is
not an Object, or every member with key "schema" or "name" has a String value and every
member with key "fields" has an Array value on which the field-list decoder succeeds;
earlier occurrences that are later overridden count too: `{"name": 1, "name": "b"}` fails. -/
theorem ReadFrom_ok_iff :
    (∀ (Field : Type) (rf : FieldsReader Field) (r : TableReaderOptions Field) (doc : Value),
      (TableReaderOptions.ReadFrom rf r doc).1 = Status.OK ↔
        (doc.GetType ≠ kObjectType ∨
          ∀ m ∈ doc.Members,
            ((m.1 = "schema" ∨ m.1 = "name") → m.2.GetType = kStringType) ∧
            (m.1 = "fields" →
              m.2.GetType = kArrayType ∧ ∃ fs, rf m.2.GetArray = Result.value fs))) ∧
    (TableReaderOptions.ReadFrom exampleReadFields (TableReaderOptions.empty String)
        (Value.object [("name", Value.number 1), ("name", Value.string "b")])).1
      = Status.Fail StatusCode.Invalid
        "type mismatch for field 'name': expected string, received number" := by
  refine ⟨?_, by decide⟩
  intro Field rf r doc
  have hacc : ∀ m : String × Value, Accepted rf m ↔
      (((m.1 = "schema" ∨ m.1 = "name") → m.2.GetType = kStringType) ∧
        (m.1 = "fields" →
          m.2.GetType = kArrayType ∧ ∃ fs, rf m.2.GetArray = Result.value fs)) := by
    intro m
    have hok : (rf m.2.GetArray).ok = true ↔ ∃ fs, rf m.2.GetArray = Result.value fs := by
      cases rf m.2.GetArray <;> simp [Result.ok]
    unfold Accepted
    rw [hok]
    constructor
    · rintro ⟨h1, h2, h3⟩
      exact ⟨fun h => h.elim h1 h2, h3⟩
    · rintro ⟨h1, h3⟩
      exact ⟨fun h => h1 (Or.inl h), fun h => h1 (Or.inr h), h3⟩
  cases doc with
  | object ms =>
    rw [ReadFrom_object]
    simp only [Value.GetType, Value.Members, ne_eq, not_true_eq_false, false_or]
    constructor
    · intro hok m hm
      exact (hacc m).mp (ReadMembers_ok_accepted rf ms r hok m hm)
    · intro hall
      exact ReadMembers_accepted rf ms r (fun m hm => (hacc m).mpr (hall m hm))
  | _ => simp [TableReaderOptions.ReadFrom, Value.IsObject, Value.GetType]

/-- Counterexample to claim C12 as stated: the member lists of `{"schema": 1, "name": 2}`
and `{"name": 2, "schema": 1}` are permutations of each other with each key once, and the
two calls fail with different errors; the member lists of `{"name": "a", "schema": 1}` and
`{"schema": 1, "name": "a"}` are also such permutations, and the two calls fail with the same
error and leave different records. -/
theorem ReadFrom_order_matters_on_failure :
    List.Perm [("schema", Value.number 1), ("name", Value.number 2)]
      [("name", Value.number 2), ("schema", Value.number 1)] ∧
    (TableReaderOptions.ReadFrom exampleReadFields (TableReaderOptions.empty String)
      (Value.object [("schema", Value.number 1), ("name", Value.number 2)])).1
      = Status.Fail StatusCode.Invalid
        "type mismatch for field 'schema': expected string, received number" ∧
    (TableReaderOptions.ReadFrom exampleReadFields (TableReaderOptions.empty String)
      (Value.object [("name", Value.number 2), ("schema", Value.number 1)])).1
      = Status.Fail StatusCode.Invalid
        "type mismatch for field 'name': expected string, received number" ∧
    List.Perm [("name", Value.string "a"), ("schema", Value.number 1)]
      [("schema", Value.number 1), ("name", Value.string "a")] ∧
    (TableReaderOptions.ReadFrom exampleReadFields (TableReaderOptions.empty String)
      (Value.object [("name", Value.string "a"), ("schema", Value.number 1)])).2.table_name
      = some "a" ∧
    (TableReaderOptions.ReadFrom exampleReadFields (TableReaderOptions.empty String)
      (Value.object [("schema", Value.number 1), ("name", Value.string "a")])).2.table_name
      = none := by
  refine ⟨List.Perm.swap _ _ _, by decide, by decide, List.Perm.swap _ _ _, by decide,
    by decide⟩

/-- Claim C12, amended: for every two Object documents whose member lists are permutations
of each other and in which each recognized key occurs at most once, `ReadFrom` gives the same
success or failure outcome, and when it succeeds the same record; when it fails and only one
member is failing, it gives the same error for both. -/
theorem ReadFrom_permutation {Field : Type} (rf : FieldsReader Field)
    (r : TableReaderOptions Field) (ms ms' : List (String × Value))
    (hperm : ms.Perm ms')
    (hschema : (ms.map Prod.fst).count "schema" ≤ 1)
    (hname : (ms.map Prod.fst).count "name" ≤ 1)
    (hfields : (ms.map Prod.fst).count "fields" ≤ 1) :
    ((TableReaderOptions.ReadFrom rf r (Value.object ms)).1 = Status.OK ↔
      (TableReaderOptions.ReadFrom rf r (Value.object ms')).1 = Status.OK) ∧
    ((TableReaderOptions.ReadFrom rf r (Value.object ms)).1 = Status.OK →
      TableReaderOptions.ReadFrom rf r (Value.object ms)
        = TableReaderOptions.ReadFrom rf r (Value.object ms')) ∧
    ((∀ m ∈ ms, ∀ m' ∈ ms, ¬ Accepted rf m → ¬ Accepted rf m' → m = m') →
      (TableReaderOptions.ReadFrom rf r (Value.object ms)).1
        = (TableReaderOptions.ReadFrom rf r (Value.object ms')).1) := by
  rw [ReadFrom_object, ReadFrom_object]
  refine ⟨?_, ?_, ?_⟩
  · constructor
    · intro hok
      exact ReadMembers_accepted rf ms' r
        (fun m hm => ReadMembers_ok_accepted rf ms r hok m (hperm.mem_iff.mpr hm))
    · intro hok
      exact ReadMembers_accepted rf ms r
        (fun m hm => ReadMembers_ok_accepted rf ms' r hok m (hperm.mem_iff.mp hm))
  · intro hok
    exact ReadMembers_perm rf ms ms' r hperm (ReadMembers_ok_accepted rf ms r hok)
      hschema hname hfields
  · intro hone
    by_cases hall : ∀ m ∈ ms, Accepted rf m
    · rw [ReadMembers_accepted rf ms r hall,
        ReadMembers_accepted rf ms' r (fun m hm => hall m (hperm.mem_iff.mpr hm))]
    · have hbad : ∃ m ∈ ms, ¬ Accepted rf m := by
        by_contra hno
        exact hall (fun m hm => by_contra (fun hb => hno ⟨m, hm, hb⟩))
      have hbad' : ∃ m ∈ ms', ¬ Accepted rf m := by
        obtain ⟨m, hm, hb⟩ := hbad
        exact ⟨m, hperm.mem_iff.mp hm, hb⟩
      obtain ⟨pre, m, post, hms, hpre, hm⟩ := exists_first_failing rf ms hbad
      obtain ⟨pre', m', post', hms', hpre', hm'⟩ := exists_first_failing rf ms' hbad'
      have hmem : m ∈ ms := by rw [hms]; simp
      have hmem' : m' ∈ ms := by
        apply hperm.mem_iff.mpr
        rw [hms']
        simp
      have heq : m = m' := hone m hmem m' hmem' hm hm'
      rw [hms, hms', ReadMembers_first_failing rf pre post m r hpre hm,
        ReadMembers_first_failing rf pre' post' m' r hpre' hm', heq]

/-- Witness of `ReadFrom_permutation`: `{"schema": "s", "name": 1}` and
`{"name": 1, "schema": "s"}`, where only the member "name" is failing. -/
theorem ReadFrom_permutation_witness :
    List.Perm [("schema", Value.string "s"), ("name", Value.number 1)]
      [("name", Value.number 1), ("schema", Value.string "s")] ∧
    (TableReaderOptions.ReadFrom exampleReadFields (TableReaderOptions.empty String)
      (Value.object [("schema", Value.string "s"), ("name", Value.number 1)])).1
      = (TableReaderOptions.ReadFrom exampleReadFields (TableReaderOptions.empty String)
        (Value.object [("name", Value.number 1), ("schema", Value.string "s")])).1 :=
  have hone : ∀ m ∈ [("schema", Value.string "s"), ("name", Value.number 1)],
      ∀ m' ∈ [("schema", Value.string "s"), ("name", Value.number 1)],
      ¬ Accepted exampleReadFields m → ¬ Accepted exampleReadFields m' → m = m' := by
    intro m hm m' hm' hb hb'
    simp only [List.mem_cons, List.mem_singleton, List.not_mem_nil, or_false] at hm hm'
    rcases hm with hm | hm <;> rcases hm' with hm' | hm' <;> subst hm <;> subst hm'
    · rfl
    · exact absurd (by decide) hb
    · exact absurd (by decide) hb'
    · rfl
  ⟨List.Perm.swap _ _ _,
    (ReadFrom_permutation exampleReadFields (TableReaderOptions.empty String)
      [("schema", Value.string "s"), ("name", Value.number 1)]
      [("name", Value.number 1), ("schema", Value.string "s")]
      (List.Perm.swap _ _ _) (by decide) (by decide) (by decide)).2.2 hone⟩

/-- Claim C15: state left by a failed decode: `ReadFrom` assigns to the record in place, and
when it fails at member `i` (the first failing member) the record equals the record obtained
by running `ReadFrom`, successfully and from the same initial record, on the Object that
consists of the members before `i` only; the failing member itself assigns nothing. -/
theorem ReadFrom_failed_state {Field : Type} (rf : FieldsReader Field)
    (r : TableReaderOptions Field) (ms : List (String × Value)) (i : Nat)
    (m : String × Value) (hi : ms[i]? = some m)
    (hbefore : ∀ x ∈ ms.take i, Accepted rf x) (hm : ¬ Accepted rf m) :
    (TableReaderOptions.ReadFrom rf r (Value.object ms)).1 ≠ Status.OK ∧
    (TableReaderOptions.ReadFrom rf r (Value.object (ms.take i))).1 = Status.OK ∧
    (TableReaderOptions.ReadFrom rf r (Value.object ms)).2
      = (TableReaderOptions.ReadFrom rf r (Value.object (ms.take i))).2 ∧
    (TableReaderOptions.ReadFrom rf r (Value.object (ms.take (i + 1)))).2
      = (TableReaderOptions.ReadFrom rf r (Value.object (ms.take i))).2 := by
  obtain ⟨hlt, hget⟩ := List.getElem?_eq_some.mp hi
  have hms : ms = ms.take i ++ m :: ms.drop (i + 1) := by
    rw [← hget, ← List.drop_eq_getElem_cons hlt, List.take_append_drop]
  have htake : ms.take (i + 1) = ms.take i ++ m :: [] := by
    rw [List.take_succ, hi]
    rfl
  have hfail := ReadMembers_first_failing rf (ms.take i) (ms.drop (i + 1)) m r hbefore hm
  have hfail1 := ReadMembers_first_failing rf (ms.take i) [] m r hbefore hm
  rw [← hms] at hfail
  rw [← htake] at hfail1
  simp only [ReadFrom_object]
  refine ⟨?_, ReadMembers_accepted rf _ r hbefore, ?_, ?_⟩
  · rw [hfail]
    exact fun e => hm ((ReadMembers_single_ok_iff rf m r).mp e)
  · rw [hfail]
  · rw [hfail1]

/-- Witness of `ReadFrom_failed_state`: `{"name": "a", "fields": ["x", 1], "schema": "s"}`
read into a record that holds the field `f0`: the rejected array leaves `fields` as it was
and `table_name` holds "a". -/
theorem ReadFrom_failed_state_witness :
    ([("name", Value.string "a"), ("fields", Value.array [Value.string "x", Value.number 1]),
        ("schema", Value.string "s")] : List (String × Value))[1]?
      = some ("fields", Value.array [Value.string "x", Value.number 1]) ∧
    (TableReaderOptions.ReadFrom exampleReadFields
      { schema_name := none, table_name := none, fields := ["f0"] }
      (Value.object [("name", Value.string "a"),
        ("fields", Value.array [Value.string "x", Value.number 1]),
        ("schema", Value.string "s")])).2
      = (TableReaderOptions.ReadFrom exampleReadFields
          { schema_name := none, table_name := none, fields := ["f0"] }
          (Value.object (List.take 1 [("name", Value.string "a"),
            ("fields", Value.array [Value.string "x", Value.number 1]),
            ("schema", Value.string "s")]))).2 :=
  have hbefore : ∀ x ∈ List.take 1 [("name", Value.string "a"),
      ("fields", Value.array [Value.string "x", Value.number 1]),
      ("schema", Value.string "s")], Accepted exampleReadFields x := by
    intro x hx
    simp only [List.take, List.mem_singleton] at hx
    subst hx
    decide
  ⟨rfl, (ReadFrom_failed_state exampleReadFields
    { schema_name := none, table_name := none, fields := ["f0"] }
    [("name", Value.string "a"), ("fields", Value.array [Value.string "x", Value.number 1]),
      ("schema", Value.string "s")] 1
    ("fields", Value.array [Value.string "x", Value.number 1]) rfl hbefore
    (by decide)).2.2.1⟩

/-- Claim C16: `ReadFrom` merges into the existing record instead of resetting it: for every
initial record and every document, each of `schema_name`, `table_name`, `fields` whose key
("schema", "name", "fields" respectively) does not occur among the members of the document
has after the call, successful or failed, the value it had before; for a document that is
not an Object the whole record is unchanged. -/
theorem ReadFrom_merges {Field : Type} (rf : FieldsReader Field)
    (r : TableReaderOptions Field) (doc : Value) :
    ((∀ m ∈ doc.Members, m.1 ≠ "schema") →
      (TableReaderOptions.ReadFrom rf r doc).2.schema_name = r.schema_name) ∧
    ((∀ m ∈ doc.Members, m.1 ≠ "name") →
      (TableReaderOptions.ReadFrom rf r doc).2.table_name = r.table_name) ∧
    ((∀ m ∈ doc.Members, m.1 ≠ "fields") →
      (TableReaderOptions.ReadFrom rf r doc).2.fields = r.fields) ∧
    (doc.GetType ≠ kObjectType → (TableReaderOptions.ReadFrom rf r doc).2 = r) := by
  cases doc with
  | object ms =>
    simp only [ReadFrom_object, Value.Members, Value.GetType]
    exact ⟨ReadMembers_frame_schema rf ms r, ReadMembers_frame_name rf ms r,
      ReadMembers_frame_fields rf ms r, fun h => absurd rfl h⟩
  | _ => simp [TableReaderOptions.ReadFrom, Value.IsObject, Value.GetType]

/-- Witness of `ReadFrom_merges`: `{"name": "t1", "schema": 7}` read into a record that
holds the field `f0`: the call fails, `fields` still holds `f0` and `table_name` is "t1". -/
theorem ReadFrom_merges_witness :
    (∀ m ∈ (Value.object [("name", Value.string "t1"), ("schema", Value.number 7)]).Members,
      m.1 ≠ "fields") ∧
    (TableReaderOptions.ReadFrom exampleReadFields
      { schema_name := some "s0", table_name := some "t0", fields := ["f0"] }
      (Value.object [("name", Value.string "t1"), ("schema", Value.number 7)])).2.fields
      = ["f0"] ∧
    (TableReaderOptions.ReadFrom exampleReadFields
      { schema_name := some "s0", table_name := some "t0", fields := ["f0"] }
      (Value.object [("name", Value.string "t1"), ("schema", Value.number 7)])).2.table_name
      = some "t1" :=
  have hno : ∀ m ∈ (Value.object [("name", Value.string "t1"),
      ("schema", Value.number 7)]).Members, m.1 ≠ "fields" := by
    intro m hm
    simp only [Value.Members, List.mem_cons, List.mem_singleton, List.not_mem_nil,
      or_false] at hm
    rcases hm with hm | hm <;> subst hm <;> decide
  ⟨hno, (ReadFrom_merges exampleReadFields
    { schema_name := some "s0", table_name := some "t0", fields := ["f0"] }
    (Value.object [("name", Value.string "t1"), ("schema", Value.number 7)])).2.2.1 hno,
    by decide⟩

/-- Claim C17: in-place idempotence: for every initial record and every document, calling
`ReadFrom` on the record and then `ReadFrom` with the same document again on the resulting
record returns the same status both times and leaves the record equal to the record after
the first call, on success and on failure alike. -/
theorem ReadFrom_again {Field : Type} (rf : FieldsReader Field)
    (r : TableReaderOptions Field) (doc : Value) :
    (TableReaderOptions.ReadFrom rf (TableReaderOptions.ReadFrom rf r doc).2 doc).1
      = (TableReaderOptions.ReadFrom rf r doc).1 ∧
    (TableReaderOptions.ReadFrom rf (TableReaderOptions.ReadFrom rf r doc).2 doc).2
      = (TableReaderOptions.ReadFrom rf r doc).2 := by
  cases doc with
  | object ms =>
    simp only [ReadFrom_object]
    refine ⟨ReadMembers_status rf ms _ r, ?_⟩
    by_cases hall : ∀ m ∈ ms, Accepted rf m
    · exact ReadMembers_again rf ms r hall
    · have hbad : ∃ m ∈ ms, ¬ Accepted rf m := by
        by_contra hno
        exact hall (fun m hm => by_contra (fun hb => hno ⟨m, hm, hb⟩))
      obtain ⟨pre, m, post, hms, hpre, hm⟩ := exists_first_failing rf ms hbad
      rw [hms, ReadMembers_first_failing rf pre post m r hpre hm,
        ReadMembers_first_failing rf pre post m _ hpre hm]
      exact ReadMembers_again rf pre r hpre
  | _ => simp [TableReaderOptions.ReadFrom, Value.IsObject, Value.GetType]

/-- Claim C18: every type-mismatch message that `ReadFrom` can produce names two different
types: a failed call returns either an error of the field-list decoder, unchanged, or the
Invalid error of a member `(key, v)` of the document with the message
"type mismatch for field '<key>': expected <E>, received <R>", where <E> is "string" or
"array", <R> is the name of the tag of `v`, <E> differs from <R> and <R> is not "?"; the
name of the tag of a value is never "?". By contrast `RequireFieldType` alone gives
"expected boolean, received boolean" for the expected tag True and a value of tag False. -/
theorem ReadFrom_mismatch_names_differ :
    (∀ (Field : Type) (rf : FieldsReader Field) (r : TableReaderOptions Field) (doc : Value),
      (TableReaderOptions.ReadFrom rf r doc).1 ≠ Status.OK →
        (∃ elements code msg, rf elements = Result.error code msg ∧
          (TableReaderOptions.ReadFrom rf r doc).1 = Status.Fail code msg) ∨
        (∃ key v E, (key, v) ∈ doc.Members ∧
          (TableReaderOptions.ReadFrom rf r doc).1 = Status.Fail StatusCode.Invalid
            ("type mismatch for field '" ++ key ++ "': expected " ++ E ++ ", received "
              ++ GetTypeName v.GetType) ∧
          (E = "string" ∨ E = "array") ∧ E ≠ GetTypeName v.GetType ∧
          GetTypeName v.GetType ≠ "?")) ∧
    (∀ v : Value, GetTypeName v.GetType ≠ "?") ∧
    RequireFieldType Value.bFalse kTrueType "f" = Status.Fail StatusCode.Invalid
      "type mismatch for field 'f': expected boolean, received boolean" := by
  refine ⟨?_, ?_, by decide⟩
  · intro Field rf r doc hfail
    obtain ⟨ms, hdoc, hbad⟩ := ReadFrom_fail_object rf r doc hfail
    obtain ⟨pre, m, post, hms, hpre, hm⟩ := exists_first_failing rf ms hbad
    have hst : (TableReaderOptions.ReadFrom rf r doc).1 = (ReadMembers rf [m] r).1 := by
      rw [hdoc, ReadFrom_object, hms, ReadMembers_first_failing rf pre post m r hpre hm]
    have hmem : m ∈ doc.Members := by
      rw [hdoc, hms]
      simp [Value.Members]
    have hne : (ReadMembers rf [m] r).1 ≠ Status.OK :=
      fun e => hm ((ReadMembers_single_ok_iff rf m r).mp e)
    rw [hst]
    obtain ⟨k, v⟩ := m
    by_cases hk : Recognized k
    · rcases hk with hk | hk | hk <;> subst hk
      · by_cases ht : v.GetType = kStringType
        · simp [ReadMembers_schema_ok rf v _ _ ht, ReadMembers_nil] at hne
        · right
          refine ⟨"schema", v, "string", hmem, ?_, Or.inl rfl,
            fun e => (GetTypeName_not_string v ht).1 e.symm, (GetTypeName_not_string v ht).2⟩
          rw [ReadMembers_schema_bad rf v [] r ht, RequireFieldType_other _ _ _ ht]
          rfl
      · by_cases ht : v.GetType = kStringType
        · simp [ReadMembers_name_ok rf v _ _ ht, ReadMembers_nil] at hne
        · right
          refine ⟨"name", v, "string", hmem, ?_, Or.inl rfl,
            fun e => (GetTypeName_not_string v ht).1 e.symm, (GetTypeName_not_string v ht).2⟩
          rw [ReadMembers_name_bad rf v [] r ht, RequireFieldType_other _ _ _ ht]
          rfl
      · by_cases ht : v.GetType = kArrayType
        · cases hfs : rf v.GetArray with
          | value fs => simp [ReadMembers_fields_ok rf v fs _ _ ht hfs, ReadMembers_nil] at hne
          | error code msg =>
            left
            exact ⟨v.GetArray, code, msg, hfs,
              by rw [ReadMembers_fields_rejected rf v code msg [] r ht hfs]⟩
        · right
          refine ⟨"fields", v, "array", hmem, ?_, Or.inr rfl,
            fun e => (GetTypeName_not_array v ht).1 e.symm, (GetTypeName_not_array v ht).2⟩
          rw [ReadMembers_fields_bad rf v [] r ht, RequireFieldType_other _ _ _ ht]
          rfl
    · simp [ReadMembers_skip rf k v _ _ hk, ReadMembers_nil] at hne
  · intro v
    cases v <;> simp only [Value.GetType] <;> decide

/-- Witness of `ReadFrom_mismatch_names_differ`: the failed call on `{"schema": 42}`. -/
theorem ReadFrom_mismatch_names_differ_witness :
    (TableReaderOptions.ReadFrom exampleReadFields (TableReaderOptions.empty String)
      (Value.object [("schema", Value.number 42)])).1 ≠ Status.OK ∧
    ((∃ elements code msg, exampleReadFields elements = Result.error code msg ∧
        (TableReaderOptions.ReadFrom exampleReadFields (TableReaderOptions.empty String)
          (Value.object [("schema", Value.number 42)])).1 = Status.Fail code msg) ∨
      (∃ key v E, (key, v) ∈ (Value.object [("schema", Value.number 42)]).Members ∧
        (TableReaderOptions.ReadFrom exampleReadFields (TableReaderOptions.empty String)
          (Value.object [("schema", Value.number 42)])).1 = Status.Fail StatusCode.Invalid
            ("type mismatch for field '" ++ key ++ "': expected " ++ E ++ ", received "
              ++ GetTypeName v.GetType) ∧
        (E = "string" ∨ E = "array") ∧ E ≠ GetTypeName v.GetType ∧
        GetTypeName v.GetType ≠ "?")) :=
  ⟨by decide, ReadFrom_mismatch_names_differ.1 String exampleReadFields
    (TableReaderOptions.empty String) (Value.object [("schema", Value.number 42)])
    (by decide)⟩

end duckdb.web.csv
